import Mathlib

/-!
Verification of the mcplcwatch MC-protocol client library.

The Python source is embedded shallowly:

* Byte strings become `List Nat` (each entry a byte value).
* Python builds multi-byte fields through hexadecimal *strings*
  (`hex(n)[2:]`, `zero_padding`, `int(s, 16)`); we embed those string
  manipulations at the digit level: a hex string is represented by its
  list of digit values (most significant first), so `hex(n)[2:]`
  becomes `hexDigits n`, slicing becomes `List.take`/`List.drop`, and
  `int(s, 16)` becomes `hexValue`.
* Fallible code returns `Except`.
* Socket I/O is modelled by an explicit `Net` oracle; the response the
  peer sends back is a function of the request frame, and every client
  operation additionally returns the list of frames it transmitted.
* Python text strings are modelled by their UTF-8 byte sequences
  (`List Nat`); UTF-8 encode/decode is the identity on that
  representation.
-/

namespace MCProtocol

/-- Frame type tag for the 3E frame (`MCProtocol.FRAME_3E = "3E"`). -/
def FRAME_3E : String := "3E"

/-- Frame type tag for the 4E frame (`MCProtocol.FRAME_4E = "4E"`). -/
def FRAME_4E : String := "4E"

/-- Sub-header by frame type (`MCProtocol.SUBHEADER`); `none` models a
`KeyError`-free membership test (`frame_type not in MCProtocol.SUBHEADER`). -/
def SUBHEADER (frame_type : String) : Option (List Nat) :=
  if frame_type = FRAME_3E then some [0x50, 0x00]
  else if frame_type = FRAME_4E then some [0x54, 0x00]
  else none

/-- `MCProtocol.CMD_BATCH_READ_WORD`. -/
def CMD_BATCH_READ_WORD : List Nat := [0x01, 0x04]

/-- `MCProtocol.CMD_BATCH_WRITE_WORD`. -/
def CMD_BATCH_WRITE_WORD : List Nat := [0x01, 0x14]

/-- `MCProtocol.CMD_BATCH_READ_BIT`. -/
def CMD_BATCH_READ_BIT : List Nat := [0x01, 0x04]

/-- `MCProtocol.CMD_BATCH_WRITE_BIT`. -/
def CMD_BATCH_WRITE_BIT : List Nat := [0x01, 0x14]

/-- `MCProtocol.SUBCMD`. -/
def SUBCMD : List Nat := [0x00, 0x00]

/-- `MCProtocol.TIMER` (monitoring timer, little-endian 0x0020). -/
def TIMER : List Nat := [0x20, 0x00]

/-- `MCProtocol.DEVICE_CODES` as an association list. -/
def DEVICE_CODES : List (String × Nat) :=
  [("D", 0xA8), ("W", 0xB4), ("M", 0x90), ("X", 0x9C), ("Y", 0x9D),
   ("B", 0xA0), ("SM", 0x91), ("SD", 0xA9), ("TS", 0xC1), ("TC", 0xC0),
   ("TN", 0xC2), ("SS", 0xC7), ("SC", 0xC6), ("SN", 0xC8), ("CS", 0xC4),
   ("CC", 0xC3), ("CN", 0xC5), ("R", 0xAF), ("ZR", 0xB0)]

/-- Dictionary lookup `MCProtocol.DEVICE_CODES[device_type]`;
`none` models `device_type not in MCProtocol.DEVICE_CODES`. -/
def deviceCode (device_type : String) : Option Nat :=
  (DEVICE_CODES.find? (fun p => p.1 == device_type)).map (fun p => p.2)

/-- `MCProtocol.BIT_DEVICES`. -/
def BIT_DEVICES : List String :=
  ["X", "Y", "M", "B", "SM", "TS", "TC", "SS", "SC", "CS", "CC"]

/-- `MCProtocol.WORD_DEVICES`. -/
def WORD_DEVICES : List String :=
  ["D", "W", "SD", "TN", "SN", "CN", "R", "ZR"]

/-- Digit-level embedding of Python `hex(n)[2:]`: the base-16 digits of
`n`, most significant first, with `hexDigits 0 = [0]` (Python prints "0"). -/
def hexDigits (n : Nat) : List Nat :=
  if _h : n < 16 then [n]
  else hexDigits (n / 16) ++ [n % 16]
termination_by n
decreasing_by
  simp_wf
  omega

/-- `MCProtocol.zero_padding` at the digit level: Python
`('0' * length + value)[-length:]` keeps the last `length` characters. -/
def zero_padding (value : List Nat) (length : Nat) : List Nat :=
  if value.length ≥ length then value
  else
    (List.replicate length 0 ++ value).drop
      ((List.replicate length 0 ++ value).length - length)

/-- Digit-level embedding of Python `int(s, 16)`. -/
def hexValue (digits : List Nat) : Nat :=
  digits.foldl (fun acc d => acc * 16 + d) 0

/-- `MCProtocol.device_number_to_bytes`: pad the hex digits to 6, then
take `s[4:]`, `s[2:4]`, `s[0:2]` as the three little-endian bytes. -/
def device_number_to_bytes (device_number : Nat) : List Nat :=
  let s := zero_padding (hexDigits device_number) 6
  [hexValue (s.drop 4), hexValue ((s.drop 2).take 2), hexValue (s.take 2)]

/-- `MCProtocol.element_to_bytes`: pad the hex digits to 4, then take
`s[2:]`, `s[0:2]` as the two little-endian bytes. -/
def element_to_bytes (element : Nat) : List Nat :=
  let s := zero_padding (hexDigits element) 4
  [hexValue (s.drop 2), hexValue (s.take 2)]

/-- The access-path region that each builder appends right after the
sub-header (the 3E and 4E `frame.extend` blocks), including the
request-data-length placeholder bytes. -/
def accessPath (frame_type : String) (network_no pc_no unit_io_no unit_station : Nat) :
    List Nat :=
  if frame_type = FRAME_3E then
    [network_no, pc_no, unit_io_no &&& 0xFF, (unit_io_no >>> 8) &&& 0xFF,
     unit_station, 0x00, 0x00]
  else
    [0x00, 0x00, 0x00, 0x00, network_no, pc_no, 0xFF, 0xFF,
     unit_io_no &&& 0xFF, (unit_io_no >>> 8) &&& 0xFF, unit_station]

/-- `data_length_index`: where the request-data-length field is
back-patched (7 for 3E, 3 for 4E). -/
def dataLengthIndex (frame_type : String) : Nat :=
  if frame_type = FRAME_3E then 7 else 3

/-- `data_start_index`: where the request-data length starts counting
(9 for 3E, 11 for 4E). -/
def dataStartIndex (frame_type : String) : Nat :=
  if frame_type = FRAME_3E then 9 else 11

/-- The tail of every builder (identical in `create_read_frame`,
`create_write_frame` and `create_write_string_frame`): append the
request body after the access path, then back-patch the request-data
length at `data_length_index` (7 for 3E, 3 for 4E) from the byte count
of `frame[data_start_index:]` (9 for 3E, 11 for 4E). -/
def buildFrame (frame_type : String) (network_no pc_no unit_io_no unit_station : Nat)
    (body : List Nat) : List Nat :=
  let frame := (SUBHEADER frame_type).getD [] ++
    accessPath frame_type network_no pc_no unit_io_no unit_station
  let frame := frame ++ body
  let data_length_index := dataLengthIndex frame_type
  let data_start_index := dataStartIndex frame_type
  let data_length := zero_padding (hexDigits (frame.drop data_start_index).length) 4
  let frame := frame.set data_length_index (hexValue (data_length.drop 2))
  let frame := frame.set (data_length_index + 1) (hexValue (data_length.take 2))
  frame

/-- Python `bytes(frame)`: the final conversion in every builder.
It succeeds only when every list entry is a byte value (the entries are
naturals here, so only the upper bound can fail); otherwise it raises
`ValueError`. -/
def bytesOf (frame : List Nat) : Except String (List Nat) :=
  if frame.all (fun b => b < 256) then .ok frame
  else .error "bytes must be in range(0, 256)"

/-- `MCProtocol.create_read_frame`. Errors are the `ValueError`s the
source raises for an unsupported device or frame type, and the
`ValueError` of the final `bytes(frame)` conversion. -/
def create_read_frame (device_type : String) (device_number element : Nat)
    (is_bit : Bool) (frame_type : String)
    (network_no pc_no unit_io_no unit_station : Nat) : Except String (List Nat) :=
  if (deviceCode device_type).isNone then
    .error "Unsupported device type"
  else if (SUBHEADER frame_type).isNone then
    .error "Unsupported frame type"
  else
    let command := if is_bit then CMD_BATCH_READ_BIT else CMD_BATCH_READ_WORD
    bytesOf (buildFrame frame_type network_no pc_no unit_io_no unit_station
      (TIMER ++ command ++ SUBCMD ++ device_number_to_bytes device_number ++
       [(deviceCode device_type).getD 0] ++ element_to_bytes element))

/-- The word-write payload loop of `create_write_frame`: for each value,
append `int(value_hex[2:], 16)` then `int(value_hex[0:2], 16)` where
`value_hex = zero_padding(hex(value)[2:], 4)`. -/
def wordValuesBytes : List Nat → List Nat
  | [] => []
  | v :: rest =>
    hexValue ((zero_padding (hexDigits v) 4).drop 2) ::
    hexValue ((zero_padding (hexDigits v) 4).take 2) :: wordValuesBytes rest

/-- The bit-write payload loop of `create_write_frame`: one byte per
point, `1 if value else 0` (Python truthiness of the value). -/
def bitValuesBytes (values : List Nat) : List Nat :=
  values.map (fun v => if v ≠ 0 then 1 else 0)

/-- `MCProtocol.create_write_frame` (values already a list; word values
are encoded through 4-digit hex strings, bit values by truthiness). -/
def create_write_frame (device_type : String) (device_number : Nat) (values : List Nat)
    (is_bit : Bool) (frame_type : String)
    (network_no pc_no unit_io_no unit_station : Nat) : Except String (List Nat) :=
  if (deviceCode device_type).isNone then
    .error "Unsupported device type"
  else if (SUBHEADER frame_type).isNone then
    .error "Unsupported frame type"
  else
    let command := if is_bit then CMD_BATCH_WRITE_BIT else CMD_BATCH_WRITE_WORD
    let payload := if is_bit then bitValuesBytes values else wordValuesBytes values
    bytesOf (buildFrame frame_type network_no pc_no unit_io_no unit_station
      (TIMER ++ command ++ SUBCMD ++ device_number_to_bytes device_number ++
       [(deviceCode device_type).getD 0] ++ element_to_bytes values.length ++ payload))

/-- Null-padding of the UTF-8 bytes in `create_write_string_frame`:
odd byte count gets one trailing zero, even byte count gets two. -/
def padStringBytes (str_bytes : List Nat) : List Nat :=
  if str_bytes.length % 2 = 1 then str_bytes ++ [0x00]
  else str_bytes ++ [0x00, 0x00]

/-- Device count computed by `create_write_string_frame`:
`(len + 1) // 2`, plus one more word when the byte count was even. -/
def stringDeviceCount (str_bytes : List Nat) : Nat :=
  if str_bytes.length % 2 = 1 then (str_bytes.length + 1) / 2
  else (str_bytes.length + 1) / 2 + 1

/-- The string-payload loop of `create_write_string_frame`:
`for i in range(0, len(str_bytes), 2)` appends `str_bytes[i]` and then
`str_bytes[i+1]` when it exists, else a padding zero. -/
def packPairs : List Nat → List Nat
  | [] => []
  | [b] => [b, 0]
  | a :: b :: rest => a :: b :: packPairs rest

/-- `MCProtocol.create_write_string_frame`; the Python string argument
is represented by its UTF-8 byte sequence `str_bytes`. -/
def create_write_string_frame (device_type : String) (device_number : Nat)
    (str_bytes : List Nat) (frame_type : String)
    (network_no pc_no unit_io_no unit_station : Nat) : Except String (List Nat) :=
  if device_type ∉ WORD_DEVICES then
    .error "String write is only supported for word devices"
  else if (SUBHEADER frame_type).isNone then
    .error "Unsupported frame type"
  else
    bytesOf (buildFrame frame_type network_no pc_no unit_io_no unit_station
      (TIMER ++ CMD_BATCH_WRITE_WORD ++ SUBCMD ++
       device_number_to_bytes device_number ++
       [(deviceCode device_type).getD 0] ++
       element_to_bytes (stringDeviceCount str_bytes) ++
       packPairs (padStringBytes str_bytes)))

/-- A decoded device value: bit reads yield booleans, word reads yield
unsigned 16-bit integers (Python returns a heterogeneous list). -/
inductive PlcVal where
  | bit (b : Bool)
  | word (w : Nat)
deriving DecidableEq, Repr

/-- The integer Python sees when a `PlcVal` is used as a word
(booleans coerce to 0/1). -/
def PlcVal.toNat : PlcVal → Nat
  | .bit b => if b then 1 else 0
  | .word w => w

/-- Errors of `parse_read_response`: the `ValueError` for an unsupported
frame type, the explicit too-short `ValueError` of the word branch, and
the `IndexError` a Python out-of-range index raises in the bit branch. -/
inductive ParseErr where
  | frameTypeError
  | tooShort
  | indexError
deriving DecidableEq, Repr

/-- The bit branch of `parse_read_response`:
`for i in range(data_start_index, data_start_index + element)` appends
`response[i] != 0`; an out-of-range index raises `IndexError`. -/
def bitLoop (response : List Nat) (i : Nat) : Nat → Except ParseErr (List PlcVal)
  | 0 => .ok []
  | k + 1 =>
    match response[i]? with
    | none => .error .indexError
    | some b =>
      match bitLoop response (i + 1) k with
      | .error e => .error e
      | .ok rest => .ok (.bit (b != 0) :: rest)

/-- The word branch of `parse_read_response`: steps of 2, guarded by
`i + 1 < len(response)`, combining `response[i] | (response[i+1] << 8)`;
the guard failing raises the explicit too-short `ValueError`. -/
def wordLoop (response : List Nat) (i : Nat) : Nat → Except ParseErr (List PlcVal)
  | 0 => .ok []
  | k + 1 =>
    if i + 1 < response.length then
      match response[i]?, response[i + 1]? with
      | some a, some b =>
        match wordLoop response (i + 2) k with
        | .error e => .error e
        | .ok rest => .ok (.word (a ||| (b <<< 8)) :: rest)
      | _, _ => .error .indexError
    else .error .tooShort

/-- `MCProtocol.parse_read_response`. -/
def parse_read_response (response : List Nat) (element : Nat) (is_bit : Bool)
    (frame_type : String) : Except ParseErr (List PlcVal) :=
  if (SUBHEADER frame_type).isNone then .error .frameTypeError
  else
    let data_start_index := if frame_type = FRAME_3E then 11 else 15
    if is_bit then bitLoop response data_start_index element
    else wordLoop response data_start_index element

/-- The word values that a string-write payload stores on the device:
consecutive payload byte pairs combined little-endian (low byte first),
exactly what a later word read of those devices returns. -/
def wordsOfBytes : List Nat → List Nat
  | a :: b :: rest => (a + 256 * b) :: wordsOfBytes rest
  | [a] => [a]
  | [] => []

/-- `MCProtocol.parse_string_data`; the resulting Python string is
represented by its UTF-8 byte sequence (the `decode('utf-8')` of the
truncated bytes). -/
def parse_string_data (word_data : List Nat) : List Nat :=
  let byte_data := word_data.flatMap (fun w => [w &&& 0xFF, (w >>> 8) &&& 0xFF])
  let null_pos := if 0 ∈ byte_data then byte_data.indexOf 0 else byte_data.length
  byte_data.take null_pos

end MCProtocol

namespace PlcClient

/-- Errors raised by the session layer (`error.py` hierarchy plus the
Python builtins the client can raise). -/
inductive PlcErr where
  | valueError
  | deviceError
  | commError
  | timeoutError
  | indexError
deriving DecidableEq, Repr

/-- Outcome of `sock.sendall`. -/
inductive SendOutcome where
  | succ
  | sockError
  | timeout
deriving DecidableEq, Repr

/-- Outcome of `sock.recv`: the bytes returned by the peer, a socket
error, or a timeout. -/
inductive RecvOutcome where
  | data (response : List Nat)
  | sockError
  | timeout

/-- Deterministic oracle for the TCP endpoint: whether `sock.connect`
succeeds, how `sendall` behaves, and the response `recv` yields as a
function of the request frame that was sent. -/
structure Net where
  connectOk : Bool
  send : SendOutcome
  recv : List Nat → RecvOutcome

/-- The mutable state of a `PlcClient` (its `self` fields). -/
structure State where
  connected : Bool
  sock : Option Unit
  auto_reconnect : Bool
  frame_type : String
  network_no : Nat
  pc_no : Nat
  unit_io_no : Nat
  unit_station : Nat
deriving DecidableEq, Repr

/-- `PlcClient.close`: close and drop the socket, clear `connected`. -/
def close (st : State) : State :=
  { st with sock := none, connected := false }

/-- `PlcClient.connect`: close any existing socket, create a fresh one
(timeout applied), attempt the TCP connect; `socket.error` becomes a
`PlcCommunicationError` with `connected = False`. -/
def connect (st : State) (net : Net) : Except PlcErr Bool × State :=
  let st1 := if st.sock.isSome then close st else st
  let st2 := { st1 with sock := some () }
  if net.connectOk then (.ok true, { st2 with connected := true })
  else (.error .commError, { st2 with connected := false })

/-- `PlcClient.__init__`: store the parameters, validate the frame type
(`ValueError` otherwise), then eagerly call `connect`. The first
component is what the constructor returns to the caller (the built
object, or the raised error); the second is the `self` state at exit. -/
def init (frame_type : String) (auto_reconnect : Bool)
    (network_no pc_no unit_io_no unit_station : Nat) (net : Net) :
    Except PlcErr State × State :=
  let st0 : State :=
    { connected := false, sock := none, auto_reconnect := auto_reconnect,
      frame_type := frame_type, network_no := network_no, pc_no := pc_no,
      unit_io_no := unit_io_no, unit_station := unit_station }
  if frame_type = MCProtocol.FRAME_3E ∨ frame_type = MCProtocol.FRAME_4E then
    match connect st0 net with
    | (.ok _, st1) => (.ok st1, st1)
    | (.error e, st1) => (.error e, st1)
  else (.error .valueError, st0)

/-- The mapping from a non-zero end code to a message is in the source;
here only the end-code extraction matters: little-endian u16 at offset
9 (3E) or 11 (4E). -/
def endCodeOffset (frame_type : String) : Nat :=
  if frame_type = MCProtocol.FRAME_3E then 9 else 11

/-- Minimum response length accepted: 11 bytes (3E) or 15 bytes (4E). -/
def minResponseLength (frame_type : String) : Nat :=
  if frame_type = MCProtocol.FRAME_3E then 11 else 15

/-- `PlcClient._send_and_receive`. Returns the result, the final state,
and the list of frames handed to `sendall`. Mirrors the source exactly:
the unconditional `connect` when not connected (auto_reconnect is never
consulted), the `socket.timeout`/`socket.error` handlers that clear
`connected`, and the short-response / end-code checks that raise
`PlcCommunicationError` without touching `connected`. -/
def sendAndReceive (st : State) (net : Net) (frame : List Nat) :
    Except PlcErr (List Nat) × State × List (List Nat) :=
  match (if st.connected then (.ok true, st) else connect st net :
      Except PlcErr Bool × State) with
  | (.error e, st1) => (.error e, st1, [])
  | (.ok _, st1) =>
    match net.send with
    | .sockError => (.error .commError, { st1 with connected := false }, [frame])
    | .timeout => (.error .timeoutError, { st1 with connected := false }, [frame])
    | .succ =>
      match net.recv frame with
      | .sockError => (.error .commError, { st1 with connected := false }, [frame])
      | .timeout => (.error .timeoutError, { st1 with connected := false }, [frame])
      | .data response =>
        if response.length < minResponseLength st1.frame_type then
          (.error .commError, st1, [frame])
        else
          let off := endCodeOffset st1.frame_type
          let end_code := response.getD off 0 + 256 * response.getD (off + 1) 0
          if end_code ≠ 0 then (.error .commError, st1, [frame])
          else (.ok response, st1, [frame])

/-- `PlcClient.is_bit_device`. -/
def is_bit_device (device_type : String) : Bool :=
  device_type ∈ MCProtocol.BIT_DEVICES

/-- Lift a codec `ParseErr` to the exception the client call raises. -/
def parseErrToPlc : MCProtocol.ParseErr → PlcErr
  | .indexError => .indexError
  | _ => .valueError

/-- `PlcClient.read_devices`: device-type check, frame construction,
`_send_and_receive`, response parsing. -/
def read_devices (st : State) (net : Net) (device_type : String)
    (device_number count : Nat) :
    Except PlcErr (List MCProtocol.PlcVal) × State × List (List Nat) :=
  if (MCProtocol.deviceCode device_type).isNone then (.error .deviceError, st, [])
  else
    let is_bit := is_bit_device device_type
    match MCProtocol.create_read_frame device_type device_number count is_bit
        st.frame_type st.network_no st.pc_no st.unit_io_no st.unit_station with
    | .error _ => (.error .valueError, st, [])
    | .ok frame =>
      match sendAndReceive st net frame with
      | (.error e, st1, tr) => (.error e, st1, tr)
      | (.ok response, st1, tr) =>
        match MCProtocol.parse_read_response response count is_bit st.frame_type with
        | .error e => (.error (parseErrToPlc e), st1, tr)
        | .ok data => (.ok data, st1, tr)

/-- `PlcClient.read_string`: word devices only; the word count is
`(max_length * 3 + 1) // 2`; the result is `parse_string_data` applied
to the words read. -/
def read_string (st : State) (net : Net) (device_type : String)
    (device_number max_length : Nat) :
    Except PlcErr (List Nat) × State × List (List Nat) :=
  if device_type ∉ MCProtocol.WORD_DEVICES then (.error .deviceError, st, [])
  else
    let word_count := (max_length * 3 + 1) / 2
    match read_devices st net device_type device_number word_count with
    | (.error e, st1, tr) => (.error e, st1, tr)
    | (.ok data, st1, tr) =>
      (.ok (MCProtocol.parse_string_data (data.map MCProtocol.PlcVal.toNat)), st1, tr)

end PlcClient

namespace Monitor

/-- The state of a `DeviceMonitor` (single-point target); `last_value`
is the optional last-observed value, `has_callback` whether a change
callback was registered. -/
structure DeviceMonitor (V : Type) where
  device_type : String
  device_number : Nat
  last_value : Option V
  has_callback : Bool

/-- A recorded change-callback invocation
`callback(device_type, device_number, old, new)`. -/
structure ChangeCall (V : Type) where
  device_type : String
  device_number : Nat
  old_value : V
  new_value : V
deriving DecidableEq

/-- `DeviceMonitor.update`: if the value differs from `last_value`,
record it, and invoke the callback only when one is registered and the
old value was not `None`; returns the new state, the callback
invocations, and the changed flag. -/
def DeviceMonitor.update [DecidableEq V] (m : DeviceMonitor V) (value : V) :
    DeviceMonitor V × List (ChangeCall V) × Bool :=
  if m.last_value ≠ some value then
    let old_value := m.last_value
    let m1 := { m with last_value := some value }
    match old_value with
    | some o =>
      if m.has_callback then
        (m1, [⟨m.device_type, m.device_number, o, value⟩], true)
      else (m1, [], true)
    | none => (m1, [], true)
  else (m, [], false)

/-- The state of a `DeviceGroupMonitor` (range target). -/
structure DeviceGroupMonitor (V : Type) where
  device_type : String
  start_number : Nat
  count : Nat
  last_values : Option (List V)
  has_callback : Bool

/-- The diff loop of `DeviceGroupMonitor.update`:
`for i, (old, new) in enumerate(zip(last_values, values))`, invoking the
callback at `start_number + i` for each differing pair. -/
def groupDiffCalls [DecidableEq V] (device_type : String) (start_number : Nat) :
    Nat → List V → List V → List (ChangeCall V)
  | i, o :: os, n :: ns =>
    (if o ≠ n then [⟨device_type, start_number + i, o, n⟩] else []) ++
    groupDiffCalls device_type start_number (i + 1) os ns
  | _, _, _ => []

/-- `DeviceGroupMonitor.update`: a `None` last-observed is seeded with a
copy of the new vector and reports change without any callback;
otherwise each differing zipped position fires one callback, and the
new vector replaces the old one. -/
def DeviceGroupMonitor.update [DecidableEq V] (m : DeviceGroupMonitor V)
    (values : List V) : DeviceGroupMonitor V × List (ChangeCall V) × Bool :=
  if m.last_values ≠ some values then
    match m.last_values with
    | none => ({ m with last_values := some values }, [], true)
    | some olds =>
      let calls :=
        if m.has_callback then
          groupDiffCalls m.device_type m.start_number 0 olds values
        else []
      let changed := decide (groupDiffCalls m.device_type m.start_number 0 olds values ≠ [])
      ({ m with last_values := some values }, calls, changed)
  else (m, [], false)

end Monitor

/-! ### Hex-digit arithmetic -/

namespace MCProtocol

lemma hexDigits_of_lt {n : Nat} (h : n < 16) : hexDigits n = [n] := by
  unfold hexDigits
  simp [h]

lemma hexDigits_of_ge {n : Nat} (h : 16 ≤ n) :
    hexDigits n = hexDigits (n / 16) ++ [n % 16] := by
  conv_lhs => unfold hexDigits
  rw [dif_neg (by omega)]

lemma zero_padding_one (d : Nat) : zero_padding [d] 4 = [0, 0, 0, d] := rfl

lemma zero_padding_two (a b : Nat) : zero_padding [a, b] 4 = [0, 0, a, b] := rfl

lemma zero_padding_three (a b c : Nat) : zero_padding [a, b, c] 4 = [0, a, b, c] := rfl

lemma zero_padding_four_id (a b c d : Nat) :
    zero_padding [a, b, c, d] 4 = [a, b, c, d] := rfl

lemma hexValue_two (a b : Nat) : hexValue [a, b] = a * 16 + b := by
  show (0 * 16 + a) * 16 + b = a * 16 + b
  omega

/-- For `L < 16^4` the 4-padded hex digits of `L` are exactly its four
base-16 digits, most significant first. -/
lemma zero_padding_hexDigits_four {L : Nat} (h : L < 65536) :
    zero_padding (hexDigits L) 4 = [L / 4096, L / 256 % 16, L / 16 % 16, L % 16] := by
  rcases Nat.lt_or_ge L 16 with h1 | h1
  · rw [hexDigits_of_lt h1, zero_padding_one]
    simp only [List.cons.injEq, and_true]
    omega
  rcases Nat.lt_or_ge L 256 with h2 | h2
  · rw [hexDigits_of_ge h1, hexDigits_of_lt (show L / 16 < 16 by omega)]
    show zero_padding [L / 16, L % 16] 4 = _
    rw [zero_padding_two]
    simp only [List.cons.injEq, and_true]
    omega
  rcases Nat.lt_or_ge L 4096 with h3 | h3
  · rw [hexDigits_of_ge h1, hexDigits_of_ge (show 16 ≤ L / 16 by omega),
      hexDigits_of_lt (show L / 16 / 16 < 16 by omega)]
    show zero_padding [L / 16 / 16, L / 16 % 16, L % 16] 4 = _
    rw [zero_padding_three]
    simp only [List.cons.injEq, and_true]
    omega
  · rw [hexDigits_of_ge h1, hexDigits_of_ge (show 16 ≤ L / 16 by omega),
      hexDigits_of_ge (show 16 ≤ L / 16 / 16 by omega),
      hexDigits_of_lt (show L / 16 / 16 / 16 < 16 by omega)]
    show zero_padding [L / 16 / 16 / 16, L / 16 / 16 % 16, L / 16 % 16, L % 16] 4 = _
    rw [zero_padding_four_id]
    simp only [List.cons.injEq, and_true]
    omega

/-- Decoding the two byte values the builders back-patch into the
request-data-length field recovers `L` in little-endian order. -/
lemma length_field_decode {L : Nat} (h : L < 65536) :
    hexValue ((zero_padding (hexDigits L) 4).drop 2) = L % 256 ∧
    hexValue ((zero_padding (hexDigits L) 4).take 2) = L / 256 := by
  rw [zero_padding_hexDigits_four h]
  constructor
  · show hexValue [L / 16 % 16, L % 16] = L % 256
    rw [hexValue_two]
    omega
  · show hexValue [L / 4096, L / 256 % 16] = L / 256
    rw [hexValue_two]
    omega

/-- `bytes(frame)` succeeds on byte-valued lists and is then the
identity. -/
lemma bytesOf_ok (l : List Nat) (h : ∀ b ∈ l, b < 256) : bytesOf l = .ok l := by
  unfold bytesOf
  rw [if_pos]
  exact List.all_eq_true.mpr (fun x hx => decide_eq_true (h x hx))

/-- A successful `bytes(frame)` returns the frame unchanged. -/
lemma bytesOf_ok_inv (l f : List Nat) (h : bytesOf l = .ok f) : f = l := by
  unfold bytesOf at h
  split at h
  · exact (Except.ok.inj h).symm
  · exact absurd h (by simp)

/-- Normal form of a 3E frame: 9 header bytes with the back-patched
length field at positions 7 and 8, followed by the body. -/
lemma buildFrame_3E (nn pc io us : Nat) (body : List Nat) :
    buildFrame FRAME_3E nn pc io us body =
      [0x50, 0x00, nn, pc, io &&& 0xFF, (io >>> 8) &&& 0xFF, us,
       hexValue ((zero_padding (hexDigits body.length) 4).drop 2),
       hexValue ((zero_padding (hexDigits body.length) 4).take 2)] ++ body := rfl

/-- Normal form of a 4E frame: 13 header bytes with the back-patched
length field at positions 3 and 4 (counting `body.length + 2` bytes,
from offset 11 on), followed by the body. -/
lemma buildFrame_4E (nn pc io us : Nat) (body : List Nat) :
    buildFrame FRAME_4E nn pc io us body =
      [0x54, 0x00, 0x00,
       hexValue ((zero_padding (hexDigits (body.length + 2)) 4).drop 2),
       hexValue ((zero_padding (hexDigits (body.length + 2)) 4).take 2),
       0x00, nn, pc, 0xFF, 0xFF, io &&& 0xFF, (io >>> 8) &&& 0xFF, us] ++ body := rfl

end MCProtocol

namespace MCProtocol

/-- The back-patched length field of a 3E frame decodes, little-endian,
to the byte count of the frame from offset 9 on. -/
lemma buildFrame_3E_lenField (nn pc io us : Nat) (body : List Nat)
    (hL : body.length < 65536) :
    (buildFrame FRAME_3E nn pc io us body).getD 7 0 +
      256 * (buildFrame FRAME_3E nn pc io us body).getD 8 0 =
      (buildFrame FRAME_3E nn pc io us body).length - 9 := by
  rw [buildFrame_3E]
  show hexValue ((zero_padding (hexDigits body.length) 4).drop 2) +
      256 * hexValue ((zero_padding (hexDigits body.length) 4).take 2) =
      ([0x50, 0x00, nn, pc, io &&& 0xFF, (io >>> 8) &&& 0xFF, us,
        hexValue ((zero_padding (hexDigits body.length) 4).drop 2),
        hexValue ((zero_padding (hexDigits body.length) 4).take 2)] ++ body).length - 9
  rw [(length_field_decode hL).1, (length_field_decode hL).2]
  simp only [List.length_append, List.length_cons, List.length_nil]
  omega

/-- The back-patched length field of a 4E frame decodes, little-endian,
to the byte count of the frame from offset 11 on. -/
lemma buildFrame_4E_lenField (nn pc io us : Nat) (body : List Nat)
    (hL : body.length + 2 < 65536) :
    (buildFrame FRAME_4E nn pc io us body).getD 3 0 +
      256 * (buildFrame FRAME_4E nn pc io us body).getD 4 0 =
      (buildFrame FRAME_4E nn pc io us body).length - 11 := by
  rw [buildFrame_4E]
  show hexValue ((zero_padding (hexDigits (body.length + 2)) 4).drop 2) +
      256 * hexValue ((zero_padding (hexDigits (body.length + 2)) 4).take 2) =
      ([0x54, 0x00, 0x00,
        hexValue ((zero_padding (hexDigits (body.length + 2)) 4).drop 2),
        hexValue ((zero_padding (hexDigits (body.length + 2)) 4).take 2),
        0x00, nn, pc, 0xFF, 0xFF, io &&& 0xFF, (io >>> 8) &&& 0xFF, us] ++ body).length - 11
  rw [(length_field_decode hL).1, (length_field_decode hL).2]
  simp only [List.length_append, List.length_cons, List.length_nil]
  omega

lemma device_number_to_bytes_length (n : Nat) : (device_number_to_bytes n).length = 3 := rfl

lemma element_to_bytes_length (e : Nat) : (element_to_bytes e).length = 2 := rfl

lemma wordValuesBytes_length (vs : List Nat) : (wordValuesBytes vs).length = 2 * vs.length := by
  induction vs with
  | nil => rfl
  | cons v rest ih =>
    simp only [wordValuesBytes, List.length_cons, ih]
    omega

lemma bitValuesBytes_length (vs : List Nat) : (bitValuesBytes vs).length = vs.length := by
  simp [bitValuesBytes]

/-- The request body of a read or write frame before any payload:
timer, command, subcommand, 3 device-number bytes, device code, and
2 element-count bytes. -/
lemma request_body_length (cmd : List Nat) (n c e : Nat) (payload : List Nat) :
    (TIMER ++ cmd ++ SUBCMD ++ device_number_to_bytes n ++ [c] ++
      element_to_bytes e ++ payload).length = 10 + cmd.length + payload.length := by
  simp only [List.length_append, List.length_cons, List.length_nil,
    device_number_to_bytes_length, element_to_bytes_length, TIMER, SUBCMD]
  omega

end MCProtocol

namespace MCProtocol

lemma packPairs_even_id : ∀ (bs : List Nat), bs.length % 2 = 0 → packPairs bs = bs
  | [], _ => rfl
  | [_], h => by simp at h
  | a :: b :: rest, h => by
    have hr : rest.length % 2 = 0 := by
      simp only [List.length_cons] at h
      omega
    show a :: b :: packPairs rest = a :: b :: rest
    rw [packPairs_even_id rest hr]

lemma padStringBytes_even_length (s : List Nat) : (padStringBytes s).length % 2 = 0 := by
  unfold padStringBytes
  split <;> simp only [List.length_append, List.length_cons, List.length_nil] <;> omega

lemma padStringBytes_length_le (s : List Nat) : (padStringBytes s).length ≤ s.length + 2 := by
  unfold padStringBytes
  split <;> simp only [List.length_append, List.length_cons, List.length_nil] <;> omega

/-- `x & 0xFF` is `x % 256` (the source masks bytes this way). -/
lemma and_255_eq_mod (x : Nat) : x &&& 255 = x % 256 := by
  have h := Nat.and_pow_two_sub_one_eq_mod x 8
  norm_num at h
  exact h

/-- `x >> 8` is division by 256. -/
lemma shiftRight_8_eq_div (x : Nat) : x >>> 8 = x / 256 := by
  rw [Nat.shiftRight_eq_div_pow]

lemma read_command_length (is_bit : Bool) :
    (if is_bit then CMD_BATCH_READ_BIT else CMD_BATCH_READ_WORD).length = 2 := by
  cases is_bit <;> rfl

lemma write_command_length (is_bit : Bool) :
    (if is_bit then CMD_BATCH_WRITE_BIT else CMD_BATCH_WRITE_WORD).length = 2 := by
  cases is_bit <;> rfl

/-- Body length of a read request: always 12 bytes. -/
lemma read_body_length (cmd : List Nat) (n c e : Nat) :
    (TIMER ++ cmd ++ SUBCMD ++ device_number_to_bytes n ++ [c] ++
      element_to_bytes e).length = 10 + cmd.length := by
  simp only [List.length_append, List.length_cons, List.length_nil,
    device_number_to_bytes_length, element_to_bytes_length, TIMER, SUBCMD]
  omega

/-- Evaluation of the S1 scenario frame, shared by several claims. -/
lemma create_read_frame_D100 :
    create_read_frame "D" 100 10 false FRAME_3E 0 0xFF 0x03FF 0 =
      .ok [0x50, 0x00, 0x00, 0xFF, 0xFF, 0x03, 0x00, 0x0C, 0x00, 0x20, 0x00,
           0x01, 0x04, 0x00, 0x00, 0x64, 0x00, 0x00, 0xA8, 0x0A, 0x00] := by
  simp [create_read_frame, bytesOf, buildFrame, accessPath, SUBHEADER, FRAME_3E,
    FRAME_4E, deviceCode, DEVICE_CODES, device_number_to_bytes, element_to_bytes,
    zero_padding, hexValue, hexDigits, TIMER, SUBCMD, CMD_BATCH_READ_WORD,
    dataLengthIndex, dataStartIndex, and_255_eq_mod]

end MCProtocol

/-- C1: building a 3E batch-read frame for device class D, device number
100, element count 10 with the default access-path parameters
(network = 0, pc = 0xFF, unit-io = 0x03FF, unit-station = 0) returns
exactly the 21-byte sequence
50 00 00 FF FF 03 00 0C 00 20 00 01 04 00 00 64 00 00 A8 0A 00. -/
theorem c1_build_3e_read_frame :
    MCProtocol.create_read_frame "D" 100 10 false MCProtocol.FRAME_3E 0 0xFF 0x03FF 0 =
      .ok [0x50, 0x00, 0x00, 0xFF, 0xFF, 0x03, 0x00, 0x0C, 0x00, 0x20, 0x00,
           0x01, 0x04, 0x00, 0x00, 0x64, 0x00, 0x00, 0xA8, 0x0A, 0x00] ∧
    ([0x50, 0x00, 0x00, 0xFF, 0xFF, 0x03, 0x00, 0x0C, 0x00, 0x20, 0x00,
      0x01, 0x04, 0x00, 0x00, 0x64, 0x00, 0x00, 0xA8, 0x0A, 0x00] : List Nat).length = 21 :=
  ⟨MCProtocol.create_read_frame_D100, rfl⟩

namespace MCProtocol

lemma dataLengthIndex_3E : dataLengthIndex FRAME_3E = 7 := rfl

lemma dataLengthIndex_4E : dataLengthIndex FRAME_4E = 3 := rfl

lemma dataStartIndex_3E : dataStartIndex FRAME_3E = 9 := rfl

lemma dataStartIndex_4E : dataStartIndex FRAME_4E = 11 := rfl

end MCProtocol

/-- C2: for every frame produced by the read builder, the write builder,
or the string-write builder (any supported device class, either framing
variant, device number below 2^24, body below 2^16 bytes), the two-byte
little-endian request-data-length field at `dataLengthIndex` (offset 7
for 3E, 3 for 4E) equals the number of bytes from `dataStartIndex`
(offset 9 for 3E, 11 for 4E) through the end of the frame. -/
theorem c2_request_data_length
    (device_type frame_type : String) (device_number nn pc io us : Nat)
    (hd : (MCProtocol.deviceCode device_type).isSome = true)
    (hf : frame_type = MCProtocol.FRAME_3E ∨ frame_type = MCProtocol.FRAME_4E)
    (_hn : device_number < 2 ^ 24) :
    (∀ element is_bit f,
      MCProtocol.create_read_frame device_type device_number element is_bit
        frame_type nn pc io us = .ok f →
      f.getD (MCProtocol.dataLengthIndex frame_type) 0 +
        256 * f.getD (MCProtocol.dataLengthIndex frame_type + 1) 0 =
        f.length - MCProtocol.dataStartIndex frame_type) ∧
    (∀ values is_bit f, 2 * values.length + 14 < 65536 →
      MCProtocol.create_write_frame device_type device_number values is_bit
        frame_type nn pc io us = .ok f →
      f.getD (MCProtocol.dataLengthIndex frame_type) 0 +
        256 * f.getD (MCProtocol.dataLengthIndex frame_type + 1) 0 =
        f.length - MCProtocol.dataStartIndex frame_type) ∧
    (∀ str_bytes f, str_bytes.length + 16 < 65536 →
      MCProtocol.create_write_string_frame device_type device_number str_bytes
        frame_type nn pc io us = .ok f →
      f.getD (MCProtocol.dataLengthIndex frame_type) 0 +
        256 * f.getD (MCProtocol.dataLengthIndex frame_type + 1) 0 =
        f.length - MCProtocol.dataStartIndex frame_type) := by
  obtain ⟨code, hcode⟩ := Option.isSome_iff_exists.mp hd
  refine ⟨?_, ?_, ?_⟩
  · intro element is_bit f h
    rcases hf with hf | hf <;> subst hf <;>
      simp only [MCProtocol.create_read_frame, hcode, Option.isNone_some,
        MCProtocol.SUBHEADER, MCProtocol.FRAME_3E, MCProtocol.FRAME_4E,
        String.reduceEq, Bool.false_eq_true, if_false, reduceIte, Option.getD_some,
        Except.ok.injEq] at h
    · obtain rfl := MCProtocol.bytesOf_ok_inv _ _ h
      rw [MCProtocol.dataLengthIndex_3E, MCProtocol.dataStartIndex_3E]
      exact MCProtocol.buildFrame_3E_lenField nn pc io us _ (by
        rw [MCProtocol.read_body_length, MCProtocol.read_command_length]
        omega)
    · obtain rfl := MCProtocol.bytesOf_ok_inv _ _ h
      rw [MCProtocol.dataLengthIndex_4E, MCProtocol.dataStartIndex_4E]
      exact MCProtocol.buildFrame_4E_lenField nn pc io us _ (by
        rw [MCProtocol.read_body_length, MCProtocol.read_command_length]
        omega)
  · intro values is_bit f hlen h
    have hpl : (if is_bit then MCProtocol.bitValuesBytes values
        else MCProtocol.wordValuesBytes values).length ≤ 2 * values.length := by
      cases is_bit <;>
        simp [MCProtocol.bitValuesBytes_length, MCProtocol.wordValuesBytes_length]
      omega
    rcases hf with hf | hf <;> subst hf <;>
      simp only [MCProtocol.create_write_frame, hcode, Option.isNone_some,
        MCProtocol.SUBHEADER, MCProtocol.FRAME_3E, MCProtocol.FRAME_4E,
        String.reduceEq, Bool.false_eq_true, if_false, reduceIte, Option.getD_some,
        Except.ok.injEq] at h
    · obtain rfl := MCProtocol.bytesOf_ok_inv _ _ h
      rw [MCProtocol.dataLengthIndex_3E, MCProtocol.dataStartIndex_3E]
      exact MCProtocol.buildFrame_3E_lenField nn pc io us _ (by
        rw [MCProtocol.request_body_length, MCProtocol.write_command_length]
        omega)
    · obtain rfl := MCProtocol.bytesOf_ok_inv _ _ h
      rw [MCProtocol.dataLengthIndex_4E, MCProtocol.dataStartIndex_4E]
      exact MCProtocol.buildFrame_4E_lenField nn pc io us _ (by
        rw [MCProtocol.request_body_length, MCProtocol.write_command_length]
        omega)
  · intro str_bytes f hlen h
    by_cases hw : device_type ∈ MCProtocol.WORD_DEVICES
    · have hpack : (MCProtocol.packPairs (MCProtocol.padStringBytes str_bytes)).length ≤
          str_bytes.length + 2 := by
        rw [MCProtocol.packPairs_even_id _ (MCProtocol.padStringBytes_even_length _)]
        exact MCProtocol.padStringBytes_length_le _
      rcases hf with hf | hf <;> subst hf <;>
        simp only [MCProtocol.create_write_string_frame, hw, not_true_eq_false,
          MCProtocol.SUBHEADER, MCProtocol.FRAME_3E, MCProtocol.FRAME_4E,
          String.reduceEq, Option.isNone_some, Bool.false_eq_true, if_false, reduceIte,
          Except.ok.injEq] at h
      · obtain rfl := MCProtocol.bytesOf_ok_inv _ _ h
        rw [MCProtocol.dataLengthIndex_3E, MCProtocol.dataStartIndex_3E]
        exact MCProtocol.buildFrame_3E_lenField nn pc io us _ (by
          rw [MCProtocol.request_body_length]
          simp only [MCProtocol.CMD_BATCH_WRITE_WORD, List.length_cons, List.length_nil]
          omega)
      · obtain rfl := MCProtocol.bytesOf_ok_inv _ _ h
        rw [MCProtocol.dataLengthIndex_4E, MCProtocol.dataStartIndex_4E]
        exact MCProtocol.buildFrame_4E_lenField nn pc io us _ (by
          rw [MCProtocol.request_body_length]
          simp only [MCProtocol.CMD_BATCH_WRITE_WORD, List.length_cons, List.length_nil]
          omega)
    · rcases hf with hf | hf <;> subst hf <;>
        simp only [MCProtocol.create_write_string_frame, hw, not_false_eq_true,
          if_true, reduceCtorEq] at h

/-- Witness for C2: the S1 frame (3E read of 10 words from D100) has
length field 0x000C = 21 − 9. -/
theorem c2_request_data_length_witness :
    ([0x50, 0x00, 0x00, 0xFF, 0xFF, 0x03, 0x00, 0x0C, 0x00, 0x20, 0x00,
      0x01, 0x04, 0x00, 0x00, 0x64, 0x00, 0x00, 0xA8, 0x0A, 0x00] : List Nat).getD
        (MCProtocol.dataLengthIndex MCProtocol.FRAME_3E) 0 +
      256 * ([0x50, 0x00, 0x00, 0xFF, 0xFF, 0x03, 0x00, 0x0C, 0x00, 0x20, 0x00,
        0x01, 0x04, 0x00, 0x00, 0x64, 0x00, 0x00, 0xA8, 0x0A, 0x00] : List Nat).getD
        (MCProtocol.dataLengthIndex MCProtocol.FRAME_3E + 1) 0 =
      ([0x50, 0x00, 0x00, 0xFF, 0xFF, 0x03, 0x00, 0x0C, 0x00, 0x20, 0x00,
        0x01, 0x04, 0x00, 0x00, 0x64, 0x00, 0x00, 0xA8, 0x0A, 0x00] : List Nat).length -
        MCProtocol.dataStartIndex MCProtocol.FRAME_3E :=
  (c2_request_data_length "D" MCProtocol.FRAME_3E 100 0 0xFF 0x03FF 0
      rfl (Or.inl rfl) (by norm_num)).1 10 false _ MCProtocol.create_read_frame_D100

namespace MCProtocol

/-- Reading back the stored words of an even-length byte payload yields
the payload bytes again. -/
lemma wordsOfBytes_bytes : ∀ (bs : List Nat), bs.length % 2 = 0 → (∀ b ∈ bs, b < 256) →
    (wordsOfBytes bs).flatMap (fun w => [w &&& 0xFF, (w >>> 8) &&& 0xFF]) = bs
  | [], _, _ => rfl
  | [_], h, _ => by simp at h
  | a :: b :: rest, h, hb => by
    have hr : rest.length % 2 = 0 := by
      simp only [List.length_cons] at h
      omega
    have ha : a < 256 := hb a (by simp)
    have hbb : b < 256 := hb b (by simp)
    have hrest : ∀ x ∈ rest, x < 256 := fun x hx => hb x (by simp [hx])
    show ((a + 256 * b) &&& 255) :: (((a + 256 * b) >>> 8) &&& 255) ::
      (wordsOfBytes rest).flatMap (fun w => [w &&& 0xFF, (w >>> 8) &&& 0xFF]) =
        a :: b :: rest
    rw [wordsOfBytes_bytes rest hr hrest]
    simp only [and_255_eq_mod, shiftRight_8_eq_div]
    have e1 : (a + 256 * b) % 256 = a := by omega
    have e2 : (a + 256 * b) / 256 % 256 = b := by omega
    rw [e1, e2]

/-- Truncating at the first zero of `s ++ 0 :: rest` keeps exactly the
longest zero-free prefix of `s`. -/
lemma take_indexOf_zero_append : ∀ (s rest : List Nat),
    (s ++ 0 :: rest).take ((s ++ 0 :: rest).indexOf 0) =
      s.takeWhile (fun b => b ≠ 0)
  | [], rest => by
    simp [List.indexOf_cons_self]
  | b :: tl, rest => by
    by_cases hb : b = 0
    · subst hb
      simp [List.indexOf_cons_self]
    · have hidx : (b :: (tl ++ 0 :: rest)).indexOf 0 =
          ((tl ++ 0 :: rest).indexOf 0) + 1 := List.indexOf_cons_ne _ hb
      rw [List.cons_append, hidx, List.take_succ_cons,
        List.takeWhile_cons_of_pos (by simp [hb]), take_indexOf_zero_append tl rest]

lemma takeWhile_ne_zero_of_not_mem : ∀ (s : List Nat), 0 ∉ s →
    s.takeWhile (fun b => b ≠ 0) = s
  | [], _ => rfl
  | b :: tl, h => by
    have hb : b ≠ 0 := fun hb => h (by simp [hb])
    have htl : 0 ∉ tl := fun htl => h (by simp [htl])
    rw [List.takeWhile_cons_of_pos (by simp [hb]), takeWhile_ne_zero_of_not_mem tl htl]

lemma padStringBytes_mem_lt (s : List Nat) (hb : ∀ b ∈ s, b < 256) :
    ∀ b ∈ padStringBytes s, b < 256 := by
  intro b hmem
  unfold padStringBytes at hmem
  split at hmem <;> rw [List.mem_append] at hmem <;>
    rcases hmem with hmem | hmem <;> first
      | exact hb b hmem
      | (simp at hmem; omega)

lemma padStringBytes_zero_mem (s : List Nat) : (0 : Nat) ∈ padStringBytes s := by
  unfold padStringBytes
  split <;> simp

/-- Decoding the words stored by the string-write payload returns the
longest zero-free prefix of the original bytes. -/
lemma parse_string_payload (s : List Nat) (hb : ∀ b ∈ s, b < 256) :
    parse_string_data (wordsOfBytes (packPairs (padStringBytes s))) =
      s.takeWhile (fun b => b ≠ 0) := by
  rw [packPairs_even_id _ (padStringBytes_even_length s)]
  simp only [parse_string_data]
  rw [wordsOfBytes_bytes _ (padStringBytes_even_length s) (padStringBytes_mem_lt s hb),
    if_pos (padStringBytes_zero_mem s)]
  unfold padStringBytes
  split
  · exact take_indexOf_zero_append s []
  · exact take_indexOf_zero_append s [0]

/-- The string-write builder applied to device class D and 3E framing,
with the checks resolved. -/
lemma create_write_string_frame_D (device_number nn pc io us : Nat) (s : List Nat) :
    create_write_string_frame "D" device_number s FRAME_3E nn pc io us =
      bytesOf (buildFrame FRAME_3E nn pc io us
        (TIMER ++ CMD_BATCH_WRITE_WORD ++ SUBCMD ++
         device_number_to_bytes device_number ++ [0xA8] ++
         element_to_bytes (stringDeviceCount s) ++
         packPairs (padStringBytes s))) := rfl

/-- Dropping the 21 header-plus-request bytes of a 3E write frame leaves
its payload. -/
lemma buildFrame_3E_drop_21 (nn pc io us dn c e : Nat) (payload : List Nat) :
    (buildFrame FRAME_3E nn pc io us
      (TIMER ++ CMD_BATCH_WRITE_WORD ++ SUBCMD ++ device_number_to_bytes dn ++
       [c] ++ element_to_bytes e ++ payload)).drop 21 = payload := rfl

end MCProtocol

/-- C3: for every byte string s without an embedded zero byte, decoding
(`parse_string_data`) the word vector that the string-write frame of
`create_write_string_frame` stores for s returns s exactly; for every s
with an embedded zero, it returns the prefix of s up to the first zero
byte (strings are represented by their UTF-8 byte sequences; the
payload of a 3E frame starts at offset 21). -/
theorem c3_string_write_roundtrip
    (s : List Nat) (hb : ∀ b ∈ s, b < 256) (device_number nn pc io us : Nat)
    (f : List Nat)
    (h : MCProtocol.create_write_string_frame "D" device_number s
        MCProtocol.FRAME_3E nn pc io us = .ok f) :
    (0 ∉ s → MCProtocol.parse_string_data (MCProtocol.wordsOfBytes (f.drop 21)) = s) ∧
    MCProtocol.parse_string_data (MCProtocol.wordsOfBytes (f.drop 21)) =
      s.takeWhile (fun b => b ≠ 0) := by
  rw [MCProtocol.create_write_string_frame_D] at h
  obtain rfl := MCProtocol.bytesOf_ok_inv _ _ h
  rw [MCProtocol.buildFrame_3E_drop_21]
  have hparse := MCProtocol.parse_string_payload s hb
  exact ⟨fun h0 => by rw [hparse, MCProtocol.takeWhile_ne_zero_of_not_mem s h0], hparse⟩

namespace MCProtocol

/-- Evaluation of the S5 scenario: writing the bytes of "Hello" to D300
over 3E framing. -/
lemma create_write_string_frame_Hello :
    create_write_string_frame "D" 300 [72, 101, 108, 108, 111] FRAME_3E 0 0xFF 0x03FF 0 =
      .ok [0x50, 0x00, 0x00, 0xFF, 0xFF, 0x03, 0x00, 0x12, 0x00, 0x20, 0x00,
           0x01, 0x14, 0x00, 0x00, 0x2C, 0x01, 0x00, 0xA8, 0x03, 0x00,
           72, 101, 108, 108, 111, 0x00] := by
  simp [create_write_string_frame, bytesOf, buildFrame, accessPath, SUBHEADER,
    FRAME_3E, FRAME_4E, WORD_DEVICES, deviceCode, DEVICE_CODES,
    device_number_to_bytes, element_to_bytes, stringDeviceCount, padStringBytes,
    packPairs, zero_padding, hexValue, hexDigits, TIMER, SUBCMD,
    CMD_BATCH_WRITE_WORD, dataLengthIndex, dataStartIndex, and_255_eq_mod]

end MCProtocol

/-- Witness for C3: round-tripping the bytes of "Hello" (no embedded
zero) through the string-write frame for D300 recovers them exactly. -/
theorem c3_string_write_roundtrip_witness :
    MCProtocol.parse_string_data (MCProtocol.wordsOfBytes
      (([0x50, 0x00, 0x00, 0xFF, 0xFF, 0x03, 0x00, 0x12, 0x00, 0x20, 0x00,
         0x01, 0x14, 0x00, 0x00, 0x2C, 0x01, 0x00, 0xA8, 0x03, 0x00,
         72, 101, 108, 108, 111, 0x00] : List Nat).drop 21)) =
      [72, 101, 108, 108, 111] :=
  (c3_string_write_roundtrip [72, 101, 108, 108, 111] (by decide) 300 0 0xFF 0x03FF 0 _
      MCProtocol.create_write_string_frame_Hello).1 (by decide)

/-- C8: for every monitor target (point or range), a change callback is
invoked by an update only when last-observed was present before the
update; in particular an update from the never-observed state (as after
a failed initial snapshot) records the value without invoking the
change callback. -/
theorem c8_change_only_when_seeded (V : Type) [DecidableEq V]
    (m : Monitor.DeviceMonitor V) (v : V)
    (g : Monitor.DeviceGroupMonitor V) (vs : List V) :
    ((m.update v).2.1 ≠ [] → m.last_value.isSome = true) ∧
    (m.last_value = none →
      (m.update v).2.1 = [] ∧ (m.update v).1.last_value = some v) ∧
    ((g.update vs).2.1 ≠ [] → g.last_values.isSome = true) ∧
    (g.last_values = none →
      (g.update vs).2.1 = [] ∧ (g.update vs).1.last_values = some vs) := by
  refine ⟨?_, ?_, ?_, ?_⟩
  · intro hne
    rcases hm : m.last_value with _ | o
    · exact absurd (by simp [Monitor.DeviceMonitor.update, hm]) hne
    · simp
  · intro hm
    constructor <;> simp [Monitor.DeviceMonitor.update, hm]
  · intro hne
    rcases hg : g.last_values with _ | olds
    · exact absurd (by simp [Monitor.DeviceGroupMonitor.update, hg]) hne
    · simp
  · intro hg
    constructor <;> simp [Monitor.DeviceGroupMonitor.update, hg]

/-- Witness for C8: a point target and a range target with no
last-observed value record the first read without any callback. -/
theorem c8_change_only_when_seeded_witness :
    ((Monitor.DeviceMonitor.update ⟨"D", 100, none, true⟩ (10 : Nat)).2.1 = [] ∧
     (Monitor.DeviceMonitor.update ⟨"D", 100, none, true⟩ (10 : Nat)).1.last_value =
       some 10) ∧
    ((Monitor.DeviceGroupMonitor.update ⟨"D", 0, 2, none, true⟩ ([10, 20] : List Nat)).2.1 = [] ∧
     (Monitor.DeviceGroupMonitor.update ⟨"D", 0, 2, none, true⟩ ([10, 20] : List Nat)).1.last_values =
       some [10, 20]) :=
  ⟨(c8_change_only_when_seeded Nat ⟨"D", 100, none, true⟩ 10 ⟨"D", 0, 2, none, true⟩
      [10, 20]).2.1 rfl,
   (c8_change_only_when_seeded Nat ⟨"D", 100, none, true⟩ 10 ⟨"D", 0, 2, none, true⟩
      [10, 20]).2.2.2 rfl⟩

namespace MCProtocol

/-- A bit-branch parse over a buffer too short for the requested element
count hits an out-of-range index. -/
lemma bitLoop_short : ∀ (k : Nat) (response : List Nat) (i : Nat), 1 ≤ k →
    response.length < i + k → bitLoop response i k = .error .indexError := by
  intro k
  induction k with
  | zero => intro r i h1 _; omega
  | succ k ih =>
    intro r i _ hlen
    rcases hg : r[i]? with _ | b
    · simp [bitLoop, hg]
    · have hi : i < r.length := by
        by_contra hcon
        rw [List.getElem?_eq_none (by omega)] at hg
        exact absurd hg (by simp)
      have hk : 1 ≤ k := by omega
      have hrec := ih r (i + 1) hk (by omega)
      simp [bitLoop, hg, hrec]

/-- A word-branch parse over a buffer too short for the requested
element count raises the explicit too-short error. -/
lemma wordLoop_short : ∀ (k : Nat) (response : List Nat) (i : Nat), 1 ≤ k →
    response.length < i + 2 * k → wordLoop response i k = .error .tooShort := by
  intro k
  induction k with
  | zero => intro r i h1 _; omega
  | succ k ih =>
    intro r i _ hlen
    by_cases hi : i + 1 < r.length
    · have h1 : i < r.length := by omega
      have hg : r[i]? = some r[i] := List.getElem?_eq_getElem h1
      have hg2 : r[i + 1]? = some r[i + 1] := List.getElem?_eq_getElem hi
      have hk : 1 ≤ k := by omega
      have hrec := ih r (i + 2) hk (by omega)
      simp [wordLoop, hi, hg, hg2, hrec]
    · simp [wordLoop, hi]

end MCProtocol

/-- C9 (amended with element count ≥ 1): for every bit-device read
response shorter than the payload offset (11 for 3E, 15 for 4E) plus
the element count, `parse_read_response` performs an unguarded index
access and fails with an index error, whereas the word-device branch
detects a short response (shorter than the offset plus two bytes per
element) and raises the explicit too-short value error. -/
theorem c9_short_response_parsing (response : List Nat) (element : Nat)
    (frame_type : String)
    (hf : frame_type = MCProtocol.FRAME_3E ∨ frame_type = MCProtocol.FRAME_4E)
    (he : 1 ≤ element) :
    (response.length < (if frame_type = MCProtocol.FRAME_3E then 11 else 15) + element →
      MCProtocol.parse_read_response response element true frame_type =
        .error .indexError) ∧
    (response.length < (if frame_type = MCProtocol.FRAME_3E then 11 else 15) + 2 * element →
      MCProtocol.parse_read_response response element false frame_type =
        .error .tooShort) := by
  rcases hf with hf | hf <;> subst hf <;> constructor <;> intro hlen <;>
    simp only [MCProtocol.FRAME_3E, MCProtocol.FRAME_4E, String.reduceEq, reduceIte] at hlen <;>
    simp only [MCProtocol.parse_read_response, MCProtocol.SUBHEADER,
      MCProtocol.FRAME_3E, MCProtocol.FRAME_4E, String.reduceEq, reduceIte,
      Option.isNone_some, Bool.false_eq_true, if_false, if_true]
  · exact MCProtocol.bitLoop_short element response 11 he hlen
  · exact MCProtocol.wordLoop_short element response 11 he hlen
  · exact MCProtocol.bitLoop_short element response 15 he hlen
  · exact MCProtocol.wordLoop_short element response 15 he hlen

/-- Counterexample to C9 as stated: with element count 0 the bit branch
performs no index access at all — an empty response (shorter than the
payload offset plus the count) parses successfully to `[]`. -/
theorem c9_counterexample :
    MCProtocol.parse_read_response [] 0 true MCProtocol.FRAME_3E = .ok [] ∧
    ([] : List Nat).length < 11 + 0 :=
  ⟨rfl, by norm_num⟩

/-- Witness for C9: element count 1 against an empty 3E response gives
an index error on the bit branch, the too-short error on the word one. -/
theorem c9_short_response_parsing_witness :
    MCProtocol.parse_read_response [] 1 true MCProtocol.FRAME_3E =
      .error .indexError ∧
    MCProtocol.parse_read_response [] 1 false MCProtocol.FRAME_3E =
      .error .tooShort :=
  ⟨(c9_short_response_parsing [] 1 MCProtocol.FRAME_3E (Or.inl rfl) (by norm_num)).1
      (by decide),
   (c9_short_response_parsing [] 1 MCProtocol.FRAME_3E (Or.inl rfl) (by norm_num)).2
      (by decide)⟩

namespace PlcClient

/-- A successful 3E response: 11 bytes, end code 0 at offsets 9-10. -/
def okResponse : List Nat := [0xD0, 0x00, 0x00, 0xFF, 0xFF, 0x03, 0x00, 0x02, 0x00, 0x00, 0x00]

/-- An endpoint that accepts the connection and answers every request
with `okResponse`. -/
def okNet : Net :=
  { connectOk := true, send := .succ, recv := fun _ => .data okResponse }

/-- An endpoint that accepts the connection but answers with a 3-byte
(too short) response. -/
def shortNet : Net :=
  { connectOk := true, send := .succ, recv := fun _ => .data [1, 2, 3] }

/-- An endpoint that refuses TCP connections. -/
def downNet : Net :=
  { connectOk := false, send := .succ, recv := fun _ => .sockError }

/-- A connected 3E session with the default access-path parameters. -/
def st3E : State :=
  { connected := true, sock := some (), auto_reconnect := true,
    frame_type := MCProtocol.FRAME_3E, network_no := 0, pc_no := 0xFF,
    unit_io_no := 0x03FF, unit_station := 0 }

end PlcClient

/-- Counterexample to C4: the closed state is not terminal and no
session error exists — after `close()`, the next operation on a
reachable endpoint silently reconnects and succeeds. -/
theorem c4_counterexample :
    (PlcClient.sendAndReceive (PlcClient.close PlcClient.st3E) PlcClient.okNet []).1 =
      .ok PlcClient.okResponse ∧
    (PlcClient.sendAndReceive (PlcClient.close PlcClient.st3E) PlcClient.okNet
      []).2.1.connected = true := by
  constructor <;> rfl

/-- C4 (amended): `close()` drops the socket and marks the session
disconnected, but the state is not terminal: the next operation never
raises a session error; it unconditionally re-runs `connect`
(`auto_reconnect` is not consulted), so on an unreachable endpoint it
raises a communication error with connected = false, and on a reachable
endpoint it behaves exactly like an operation on a freshly reconnected
session. -/
theorem c4_close_then_reconnect (st : PlcClient.State) (net : PlcClient.Net)
    (frame : List Nat) :
    (PlcClient.close st).connected = false ∧
    (PlcClient.close st).sock = none ∧
    (net.connectOk = false →
      (PlcClient.sendAndReceive (PlcClient.close st) net frame).1 =
        .error .commError ∧
      (PlcClient.sendAndReceive (PlcClient.close st) net frame).2.1.connected = false) ∧
    (net.connectOk = true →
      PlcClient.sendAndReceive (PlcClient.close st) net frame =
        PlcClient.sendAndReceive
          { st with sock := some (), connected := true } net frame) := by
  refine ⟨rfl, rfl, ?_, ?_⟩
  · intro hnc
    simp [PlcClient.sendAndReceive, PlcClient.connect, PlcClient.close, hnc]
  · intro hc
    simp [PlcClient.sendAndReceive, PlcClient.connect, PlcClient.close, hc]

/-- Witness for C4 (amended): closing the default session and retrying
against a down endpoint raises a communication error, disconnected. -/
theorem c4_close_then_reconnect_witness :
    (PlcClient.sendAndReceive (PlcClient.close PlcClient.st3E) PlcClient.downNet []).1 =
      .error .commError ∧
    (PlcClient.sendAndReceive (PlcClient.close PlcClient.st3E) PlcClient.downNet
      []).2.1.connected = false :=
  (c4_close_then_reconnect PlcClient.st3E PlcClient.downNet []).2.2.1 rfl

/-- Counterexample to C5: a too-short response raises a communication
error but the session stays marked connected. -/
theorem c5_counterexample :
    (PlcClient.sendAndReceive PlcClient.st3E PlcClient.shortNet []).1 =
      .error .commError ∧
    (PlcClient.sendAndReceive PlcClient.st3E PlcClient.shortNet []).2.1.connected = true := by
  constructor <;> rfl

/-- C5 (amended): TCP-level failures mark the session disconnected —
connect failure, and socket error or timeout during send or receive —
while the two protocol-level communication errors (response shorter
than the 11/15-byte minimum, non-zero end code) are raised with the
session still marked connected. -/
theorem c5_disconnect_on_transport_errors (st : PlcClient.State)
    (net : PlcClient.Net) (frame : List Nat) :
    (net.connectOk = false →
      (PlcClient.connect st net).1 = .error .commError ∧
      (PlcClient.connect st net).2.connected = false) ∧
    (st.connected = true → net.send = .sockError →
      (PlcClient.sendAndReceive st net frame).1 = .error .commError ∧
      (PlcClient.sendAndReceive st net frame).2.1.connected = false) ∧
    (st.connected = true → net.send = .timeout →
      (PlcClient.sendAndReceive st net frame).1 = .error .timeoutError ∧
      (PlcClient.sendAndReceive st net frame).2.1.connected = false) ∧
    (st.connected = true → net.send = .succ → net.recv frame = .sockError →
      (PlcClient.sendAndReceive st net frame).1 = .error .commError ∧
      (PlcClient.sendAndReceive st net frame).2.1.connected = false) ∧
    (st.connected = true → net.send = .succ → net.recv frame = .timeout →
      (PlcClient.sendAndReceive st net frame).1 = .error .timeoutError ∧
      (PlcClient.sendAndReceive st net frame).2.1.connected = false) ∧
    (∀ response, st.connected = true → net.send = .succ →
      net.recv frame = .data response →
      response.length < PlcClient.minResponseLength st.frame_type →
      (PlcClient.sendAndReceive st net frame).1 = .error .commError ∧
      (PlcClient.sendAndReceive st net frame).2.1.connected = true) ∧
    (∀ response, st.connected = true → net.send = .succ →
      net.recv frame = .data response →
      ¬ response.length < PlcClient.minResponseLength st.frame_type →
      response.getD (PlcClient.endCodeOffset st.frame_type) 0 +
        256 * response.getD (PlcClient.endCodeOffset st.frame_type + 1) 0 ≠ 0 →
      (PlcClient.sendAndReceive st net frame).1 = .error .commError ∧
      (PlcClient.sendAndReceive st net frame).2.1.connected = true) := by
  refine ⟨?_, ?_, ?_, ?_, ?_, ?_, ?_⟩
  · intro hnc
    simp [PlcClient.connect, PlcClient.close, hnc]
  · intro hc hs
    simp [PlcClient.sendAndReceive, hc, hs]
  · intro hc hs
    simp [PlcClient.sendAndReceive, hc, hs]
  · intro hc hs hr
    simp [PlcClient.sendAndReceive, hc, hs, hr]
  · intro hc hs hr
    simp [PlcClient.sendAndReceive, hc, hs, hr]
  · intro response hc hs hr hshort
    simp [PlcClient.sendAndReceive, hc, hs, hr, hshort]
  · intro response hc hs hr hlong hcode
    simp only [PlcClient.sendAndReceive, hc, hs, hr, if_true, reduceIte]
    rw [if_neg hlong, if_pos hcode]
    exact ⟨rfl, hc⟩

/-- Witness for C5 (amended): a refused TCP connect raises a
communication error and marks the session disconnected. -/
theorem c5_disconnect_on_transport_errors_witness :
    (PlcClient.connect PlcClient.st3E PlcClient.downNet).1 = .error .commError ∧
    (PlcClient.connect PlcClient.st3E PlcClient.downNet).2.connected = false :=
  (c5_disconnect_on_transport_errors PlcClient.st3E PlcClient.downNet []).1 rfl

/-- C10: the constructor eagerly attempts the TCP connection; with an
unreachable endpoint it raises a communication error (so no session
object is returned) and the half-built state is marked disconnected,
while with a reachable endpoint the returned session is already
connected — in both cases regardless of auto_reconnect. -/
theorem c10_eager_connect_in_constructor (frame_type : String)
    (auto_reconnect : Bool) (nn pc io us : Nat) (net : PlcClient.Net)
    (hf : frame_type = MCProtocol.FRAME_3E ∨ frame_type = MCProtocol.FRAME_4E) :
    (net.connectOk = false →
      (PlcClient.init frame_type auto_reconnect nn pc io us net).1 =
        .error .commError ∧
      (PlcClient.init frame_type auto_reconnect nn pc io us net).2.connected = false) ∧
    (net.connectOk = true →
      (PlcClient.init frame_type auto_reconnect nn pc io us net).1 =
        .ok ((PlcClient.init frame_type auto_reconnect nn pc io us net).2) ∧
      (PlcClient.init frame_type auto_reconnect nn pc io us net).2.connected = true) := by
  constructor <;> intro h <;> rcases hf with hf | hf <;> subst hf <;>
    simp [PlcClient.init, PlcClient.connect, PlcClient.close, h,
      MCProtocol.FRAME_3E, MCProtocol.FRAME_4E]

/-- Witness for C10: constructing a 3E session against a down endpoint
raises a communication error with connected = false, independently of
auto_reconnect. -/
theorem c10_eager_connect_in_constructor_witness :
    ((PlcClient.init MCProtocol.FRAME_3E false 0 0xFF 0x03FF 0 PlcClient.downNet).1 =
        .error .commError ∧
      (PlcClient.init MCProtocol.FRAME_3E false 0 0xFF 0x03FF 0
        PlcClient.downNet).2.connected = false) ∧
    ((PlcClient.init MCProtocol.FRAME_3E false 0 0xFF 0x03FF 0 PlcClient.okNet).1 =
        .ok ((PlcClient.init MCProtocol.FRAME_3E false 0 0xFF 0x03FF 0
          PlcClient.okNet).2) ∧
      (PlcClient.init MCProtocol.FRAME_3E false 0 0xFF 0x03FF 0
        PlcClient.okNet).2.connected = true) :=
  ⟨(c10_eager_connect_in_constructor MCProtocol.FRAME_3E false 0 0xFF 0x03FF 0
      PlcClient.downNet (Or.inl rfl)).1 rfl,
   (c10_eager_connect_in_constructor MCProtocol.FRAME_3E false 0 0xFF 0x03FF 0
      PlcClient.okNet (Or.inl rfl)).2 rfl⟩


namespace MCProtocol

/-- Every digit produced by `hexDigits` is a base-16 digit. -/
lemma hexDigits_digits_lt (n : Nat) : ∀ d ∈ hexDigits n, d < 16 := by
  induction n using Nat.strong_induction_on with
  | _ n ih =>
    by_cases h : n < 16
    · rw [hexDigits_of_lt h]
      intro d hd
      simp only [List.mem_cons, List.not_mem_nil, or_false] at hd
      omega
    · rw [hexDigits_of_ge (by omega)]
      intro d hd
      rcases List.mem_append.mp hd with hd | hd
      · exact ih (n / 16) (by omega) d hd
      · simp only [List.mem_cons, List.not_mem_nil, or_false] at hd
        omega

/-- `hex(n)` prints at most k digits when `n < 16^k`. -/
lemma hexDigits_length_le : ∀ (k n : Nat), 1 ≤ k → n < 16 ^ k →
    (hexDigits n).length ≤ k := by
  intro k
  induction k with
  | zero => intro n h _; omega
  | succ k ih =>
    intro n _ hn
    by_cases h16 : n < 16
    · rw [hexDigits_of_lt h16]
      simp
    · rw [hexDigits_of_ge (by omega)]
      have hk1 : 1 ≤ k := by
        rcases Nat.eq_zero_or_pos k with hk0 | hk0
        · subst hk0
          rw [pow_one] at hn
          omega
        · omega
      have hdiv : n / 16 < 16 ^ k := by
        rw [Nat.div_lt_iff_lt_mul (by norm_num)]
        calc n < 16 ^ (k + 1) := hn
          _ = 16 ^ k * 16 := pow_succ 16 k
      have hlen := ih (n / 16) hk1 hdiv
      simp only [List.length_append, List.length_cons, List.length_nil]
      omega

/-- Padding with zeros keeps all entries base-16 digits. -/
lemma zero_padding_digits_lt (value : List Nat) (len : Nat)
    (h : ∀ d ∈ value, d < 16) : ∀ d ∈ zero_padding value len, d < 16 := by
  unfold zero_padding
  split
  · exact h
  · intro d hd
    rcases List.mem_append.mp (List.mem_of_mem_drop hd) with hd2 | hd2
    · have := List.eq_of_mem_replicate hd2
      omega
    · exact h d hd2

/-- Padding a short digit string yields exactly the requested length. -/
lemma zero_padding_length_eq (value : List Nat) (len : Nat)
    (h : value.length ≤ len) : (zero_padding value len).length = len := by
  unfold zero_padding
  split
  · omega
  · simp only [List.length_drop, List.length_append, List.length_replicate]
    omega

/-- `int(s, 16)` of at most two base-16 digits is a byte value. -/
lemma hexValue_lt_256 : ∀ (l : List Nat), (∀ d ∈ l, d < 16) → l.length ≤ 2 →
    hexValue l < 256
  | [], _, _ => by decide
  | [a], h, _ => by
    have := h a (by simp)
    show 0 * 16 + a < 256
    omega
  | [a, b], h, _ => by
    have ha := h a (by simp)
    have hb := h b (by simp)
    show (0 * 16 + a) * 16 + b < 256
    omega
  | _ :: _ :: _ :: _, _, hl => by simp at hl

/-- The three bytes of a device number below 2^24 are byte values. -/
lemma device_number_to_bytes_lt (n : Nat) (h : n < 2 ^ 24) :
    ∀ b ∈ device_number_to_bytes n, b < 256 := by
  have hdig := zero_padding_digits_lt (hexDigits n) 6 (hexDigits_digits_lt n)
  have hlen : (zero_padding (hexDigits n) 6).length = 6 :=
    zero_padding_length_eq _ _ (hexDigits_length_le 6 n (by norm_num) (by
      calc n < 2 ^ 24 := h
        _ = 16 ^ 6 := by norm_num))
  intro b hb
  simp only [device_number_to_bytes, List.mem_cons, List.not_mem_nil, or_false] at hb
  rcases hb with rfl | rfl | rfl
  · apply hexValue_lt_256
    · intro d hd
      exact hdig d (List.mem_of_mem_drop hd)
    · simp [List.length_drop, hlen]
  · apply hexValue_lt_256
    · intro d hd
      exact hdig d (List.mem_of_mem_drop (List.mem_of_mem_take hd))
    · simp [List.length_take]
  · apply hexValue_lt_256
    · intro d hd
      exact hdig d (List.mem_of_mem_take hd)
    · simp [List.length_take]

/-- The two bytes of an element count below 2^16 are byte values. -/
lemma element_to_bytes_mem_lt (e : Nat) (he : e < 65536) :
    ∀ b ∈ element_to_bytes e, b < 256 := by
  intro b hb
  simp only [element_to_bytes, List.mem_cons, List.not_mem_nil, or_false] at hb
  rcases hb with rfl | rfl
  · rw [(length_field_decode he).1]
    omega
  · rw [(length_field_decode he).2]
    omega

/-- Every code in the device-code table is a byte value. -/
lemma deviceCode_lt_256 (dt : String) (code : Nat)
    (h : deviceCode dt = some code) : code < 256 := by
  unfold deviceCode at h
  rcases hfind : DEVICE_CODES.find? (fun p => p.1 == dt) with _ | p
  · rw [hfind] at h
    simp at h
  · rw [hfind] at h
    simp only [Option.map_some'] at h
    have hmem := List.mem_of_find?_eq_some hfind
    have h2 : p.2 = code := Option.some.inj h
    fin_cases hmem <;> simp at h2 <;> omega

/-- Word-write payload bytes are byte values when every value is a
16-bit word. -/
lemma wordValuesBytes_mem_lt : ∀ (vs : List Nat), (∀ v ∈ vs, v < 65536) →
    ∀ b ∈ wordValuesBytes vs, b < 256
  | [], _, b, hb => by simp [wordValuesBytes] at hb
  | v :: rest, hv, b, hb => by
    have hv0 : v < 65536 := hv v (by simp)
    have hrest : ∀ x ∈ rest, x < 65536 := fun x hx => hv x (by simp [hx])
    simp only [wordValuesBytes, List.mem_cons] at hb
    rcases hb with rfl | rfl | hb
    · rw [(length_field_decode hv0).1]
      omega
    · rw [(length_field_decode hv0).2]
      omega
    · exact wordValuesBytes_mem_lt rest hrest b hb

/-- Bit-write payload bytes are 0 or 1. -/
lemma bitValuesBytes_mem_lt (vs : List Nat) : ∀ b ∈ bitValuesBytes vs, b < 256 := by
  intro b hb
  unfold bitValuesBytes at hb
  rcases List.mem_map.mp hb with ⟨v, _, rfl⟩
  split <;> norm_num

/-- Every byte of a read request body is a byte value. -/
lemma read_body_mem_lt (cmd : List Nat) (dn code e : Nat)
    (hcmd : ∀ b ∈ cmd, b < 256) (hdn : dn < 2 ^ 24) (hcode : code < 256)
    (he : e < 65536) :
    ∀ b ∈ TIMER ++ cmd ++ SUBCMD ++ device_number_to_bytes dn ++ [code] ++
      element_to_bytes e, b < 256 := by
  intro b hb
  simp only [List.append_assoc, List.mem_append] at hb
  rcases hb with hb | hb | hb | hb | hb | hb
  · simp only [TIMER, List.mem_cons, List.not_mem_nil, or_false] at hb
    omega
  · exact hcmd b hb
  · simp only [SUBCMD, List.mem_cons, List.not_mem_nil, or_false, or_self] at hb
    omega
  · exact device_number_to_bytes_lt dn hdn b hb
  · simp only [List.mem_cons, List.not_mem_nil, or_false] at hb
    subst hb
    exact hcode
  · exact element_to_bytes_mem_lt e he b hb

/-- Every byte of a write request body is a byte value. -/
lemma request_body_mem_lt (cmd : List Nat) (dn code e : Nat) (payload : List Nat)
    (hcmd : ∀ b ∈ cmd, b < 256) (hdn : dn < 2 ^ 24) (hcode : code < 256)
    (he : e < 65536) (hp : ∀ b ∈ payload, b < 256) :
    ∀ b ∈ TIMER ++ cmd ++ SUBCMD ++ device_number_to_bytes dn ++ [code] ++
      element_to_bytes e ++ payload, b < 256 := by
  intro b hb
  simp only [List.append_assoc, List.mem_append] at hb
  rcases hb with hb | hb | hb | hb | hb | hb | hb
  · simp only [TIMER, List.mem_cons, List.not_mem_nil, or_false] at hb
    omega
  · exact hcmd b hb
  · simp only [SUBCMD, List.mem_cons, List.not_mem_nil, or_false, or_self] at hb
    omega
  · exact device_number_to_bytes_lt dn hdn b hb
  · simp only [List.mem_cons, List.not_mem_nil, or_false] at hb
    subst hb
    exact hcode
  · exact element_to_bytes_mem_lt e he b hb
  · exact hp b hb

/-- All bytes of a 3E frame are byte values when the access-path
parameters are bytes and the body is byte-valued and short enough for
the length field. -/
lemma buildFrame_3E_mem_lt (nn pc io us : Nat) (body : List Nat)
    (hnn : nn < 256) (hpc : pc < 256) (hus : us < 256)
    (hbody : ∀ b ∈ body, b < 256) (hL : body.length < 65536) :
    ∀ b ∈ buildFrame FRAME_3E nn pc io us body, b < 256 := by
  rw [buildFrame_3E]
  intro b hb
  rcases List.mem_append.mp hb with hb | hb
  · simp only [List.mem_cons, List.not_mem_nil, or_false] at hb
    rcases hb with rfl | rfl | rfl | rfl | rfl | rfl | rfl | rfl | rfl
    · norm_num
    · norm_num
    · exact hnn
    · exact hpc
    · rw [and_255_eq_mod]
      omega
    · rw [and_255_eq_mod]
      omega
    · exact hus
    · rw [(length_field_decode hL).1]
      omega
    · rw [(length_field_decode hL).2]
      omega
  · exact hbody b hb

/-- All bytes of a 4E frame are byte values under the same conditions
(here the length field counts `body.length + 2`). -/
lemma buildFrame_4E_mem_lt (nn pc io us : Nat) (body : List Nat)
    (hnn : nn < 256) (hpc : pc < 256) (hus : us < 256)
    (hbody : ∀ b ∈ body, b < 256) (hL : body.length + 2 < 65536) :
    ∀ b ∈ buildFrame FRAME_4E nn pc io us body, b < 256 := by
  rw [buildFrame_4E]
  intro b hb
  rcases List.mem_append.mp hb with hb | hb
  · simp only [List.mem_cons, List.not_mem_nil, or_false] at hb
    rcases hb with rfl | rfl | rfl | rfl | rfl | rfl | rfl | rfl | rfl | rfl | rfl | rfl | rfl
    · norm_num
    · norm_num
    · norm_num
    · rw [(length_field_decode hL).1]
      omega
    · rw [(length_field_decode hL).2]
      omega
    · norm_num
    · exact hnn
    · exact hpc
    · norm_num
    · norm_num
    · rw [and_255_eq_mod]
      omega
    · rw [and_255_eq_mod]
      omega
    · exact hus
  · exact hbody b hb

/-- Offset of the element-count field in a read/write request frame:
19 for 3E, 23 for 4E (sub-header and access path, then timer, command,
subcommand, 3 device-number bytes and the device code). -/
def countFieldIndex (frame_type : String) : Nat :=
  if frame_type = FRAME_3E then 19 else 23

lemma countFieldIndex_3E : countFieldIndex FRAME_3E = 19 := rfl

lemma countFieldIndex_4E : countFieldIndex FRAME_4E = 23 := rfl

/-- The element-count field of a 3E request frame without payload
decodes, little-endian, to the requested element count. -/
lemma buildFrame_3E_count_noPayload (nn pc io us dn code e c1 c2 : Nat)
    (he : e < 65536) :
    (buildFrame FRAME_3E nn pc io us
      (TIMER ++ [c1, c2] ++ SUBCMD ++ device_number_to_bytes dn ++ [code] ++
       element_to_bytes e)).getD 19 0 +
      256 * (buildFrame FRAME_3E nn pc io us
        (TIMER ++ [c1, c2] ++ SUBCMD ++ device_number_to_bytes dn ++ [code] ++
         element_to_bytes e)).getD 20 0 = e := by
  show hexValue ((zero_padding (hexDigits e) 4).drop 2) +
      256 * hexValue ((zero_padding (hexDigits e) 4).take 2) = e
  rw [(length_field_decode he).1, (length_field_decode he).2]
  omega

/-- Same for a 3E request frame carrying a write payload. -/
lemma buildFrame_3E_count_payload (nn pc io us dn code e c1 c2 : Nat)
    (payload : List Nat) (he : e < 65536) :
    (buildFrame FRAME_3E nn pc io us
      (TIMER ++ [c1, c2] ++ SUBCMD ++ device_number_to_bytes dn ++ [code] ++
       element_to_bytes e ++ payload)).getD 19 0 +
      256 * (buildFrame FRAME_3E nn pc io us
        (TIMER ++ [c1, c2] ++ SUBCMD ++ device_number_to_bytes dn ++ [code] ++
         element_to_bytes e ++ payload)).getD 20 0 = e := by
  show hexValue ((zero_padding (hexDigits e) 4).drop 2) +
      256 * hexValue ((zero_padding (hexDigits e) 4).take 2) = e
  rw [(length_field_decode he).1, (length_field_decode he).2]
  omega

/-- The element-count field of a 4E request frame without payload
(offsets 23-24). -/
lemma buildFrame_4E_count_noPayload (nn pc io us dn code e c1 c2 : Nat)
    (he : e < 65536) :
    (buildFrame FRAME_4E nn pc io us
      (TIMER ++ [c1, c2] ++ SUBCMD ++ device_number_to_bytes dn ++ [code] ++
       element_to_bytes e)).getD 23 0 +
      256 * (buildFrame FRAME_4E nn pc io us
        (TIMER ++ [c1, c2] ++ SUBCMD ++ device_number_to_bytes dn ++ [code] ++
         element_to_bytes e)).getD 24 0 = e := by
  show hexValue ((zero_padding (hexDigits e) 4).drop 2) +
      256 * hexValue ((zero_padding (hexDigits e) 4).take 2) = e
  rw [(length_field_decode he).1, (length_field_decode he).2]
  omega

/-- Same for a 4E request frame carrying a write payload. -/
lemma buildFrame_4E_count_payload (nn pc io us dn code e c1 c2 : Nat)
    (payload : List Nat) (he : e < 65536) :
    (buildFrame FRAME_4E nn pc io us
      (TIMER ++ [c1, c2] ++ SUBCMD ++ device_number_to_bytes dn ++ [code] ++
       element_to_bytes e ++ payload)).getD 23 0 +
      256 * (buildFrame FRAME_4E nn pc io us
        (TIMER ++ [c1, c2] ++ SUBCMD ++ device_number_to_bytes dn ++ [code] ++
         element_to_bytes e ++ payload)).getD 24 0 = e := by
  show hexValue ((zero_padding (hexDigits e) 4).drop 2) +
      256 * hexValue ((zero_padding (hexDigits e) 4).take 2) = e
  rw [(length_field_decode he).1, (length_field_decode he).2]
  omega

end MCProtocol

/-- Counterexample to C6: element count 0 (below any sensible minimum)
raises nothing — a complete frame is produced, with 0x0000 in the
element-count field. -/
theorem c6_counterexample :
    MCProtocol.create_read_frame "D" 0 0 false MCProtocol.FRAME_3E 0 0xFF 0x03FF 0 =
      .ok [0x50, 0x00, 0x00, 0xFF, 0xFF, 0x03, 0x00, 0x0C, 0x00, 0x20, 0x00,
           0x01, 0x04, 0x00, 0x00, 0x00, 0x00, 0x00, 0xA8, 0x00, 0x00] := by
  simp [MCProtocol.create_read_frame, MCProtocol.bytesOf, MCProtocol.buildFrame,
    MCProtocol.accessPath, MCProtocol.SUBHEADER, MCProtocol.FRAME_3E,
    MCProtocol.FRAME_4E, MCProtocol.deviceCode, MCProtocol.DEVICE_CODES,
    MCProtocol.device_number_to_bytes, MCProtocol.element_to_bytes,
    MCProtocol.zero_padding, MCProtocol.hexValue, MCProtocol.hexDigits,
    MCProtocol.TIMER, MCProtocol.SUBCMD, MCProtocol.CMD_BATCH_READ_WORD,
    MCProtocol.dataLengthIndex, MCProtocol.dataStartIndex, MCProtocol.and_255_eq_mod]

/-- C6 (amended): the codec performs no element-count validation: for
every element count below 2^16 — in particular 0 and every count above
the 960-word / 7168-bit protocol maxima — the read builder succeeds,
and the write builder succeeds for every list of 16-bit values whose
request body stays below 2^16 bytes; the produced frame carries the
given count, encoded little-endian, in its element-count field
(offsets 19-20 for 3E, 23-24 for 4E). The access-path parameters and
the device number are byte-valued, as on every real session, so the
final `bytes(frame)` conversion succeeds. -/
theorem c6_no_count_validation (device_type frame_type : String)
    (device_number nn pc io us : Nat)
    (hd : (MCProtocol.deviceCode device_type).isSome = true)
    (hf : frame_type = MCProtocol.FRAME_3E ∨ frame_type = MCProtocol.FRAME_4E)
    (hn : device_number < 2 ^ 24)
    (hnn : nn < 256) (hpc : pc < 256) (hus : us < 256) :
    (∀ element is_bit, element < 65536 → ∃ f,
      MCProtocol.create_read_frame device_type device_number element is_bit
        frame_type nn pc io us = .ok f ∧
      f.getD (MCProtocol.countFieldIndex frame_type) 0 +
        256 * f.getD (MCProtocol.countFieldIndex frame_type + 1) 0 = element) ∧
    (∀ values is_bit, 2 * values.length + 14 < 65536 →
      (∀ v ∈ values, v < 65536) → ∃ f,
      MCProtocol.create_write_frame device_type device_number values is_bit
        frame_type nn pc io us = .ok f ∧
      f.getD (MCProtocol.countFieldIndex frame_type) 0 +
        256 * f.getD (MCProtocol.countFieldIndex frame_type + 1) 0 =
          values.length) := by
  obtain ⟨code, hcode⟩ := Option.isSome_iff_exists.mp hd
  have hcode256 := MCProtocol.deviceCode_lt_256 device_type code hcode
  constructor
  · intro element is_bit he
    have hcmd : ∀ b ∈ (if is_bit = true then MCProtocol.CMD_BATCH_READ_BIT
        else MCProtocol.CMD_BATCH_READ_WORD), b < 256 := by
      split <;> decide
    have hcmdlen : (if is_bit = true then MCProtocol.CMD_BATCH_READ_BIT
        else MCProtocol.CMD_BATCH_READ_WORD).length = 2 := by
      split <;> rfl
    have hbody := MCProtocol.read_body_mem_lt _ device_number code element
      hcmd hn hcode256 he
    rcases hf with hf | hf <;> subst hf
    · refine ⟨MCProtocol.buildFrame MCProtocol.FRAME_3E nn pc io us
        (MCProtocol.TIMER ++
         (if is_bit = true then MCProtocol.CMD_BATCH_READ_BIT
          else MCProtocol.CMD_BATCH_READ_WORD) ++
         MCProtocol.SUBCMD ++ MCProtocol.device_number_to_bytes device_number ++
         [code] ++ MCProtocol.element_to_bytes element), ?_, ?_⟩
      · simp only [MCProtocol.create_read_frame, hcode, Option.isNone_some,
          MCProtocol.SUBHEADER, MCProtocol.FRAME_3E, MCProtocol.FRAME_4E,
          String.reduceEq, Bool.false_eq_true, if_false, reduceIte,
          Option.getD_some]
        exact MCProtocol.bytesOf_ok _ (MCProtocol.buildFrame_3E_mem_lt nn pc io us _
          hnn hpc hus hbody (by rw [MCProtocol.read_body_length, hcmdlen]; omega))
      · rw [MCProtocol.countFieldIndex_3E]
        cases is_bit <;> simp only [Bool.false_eq_true, if_false, if_true,
            reduceIte] <;>
          exact MCProtocol.buildFrame_3E_count_noPayload nn pc io us device_number
            code element 0x01 0x04 he
    · refine ⟨MCProtocol.buildFrame MCProtocol.FRAME_4E nn pc io us
        (MCProtocol.TIMER ++
         (if is_bit = true then MCProtocol.CMD_BATCH_READ_BIT
          else MCProtocol.CMD_BATCH_READ_WORD) ++
         MCProtocol.SUBCMD ++ MCProtocol.device_number_to_bytes device_number ++
         [code] ++ MCProtocol.element_to_bytes element), ?_, ?_⟩
      · simp only [MCProtocol.create_read_frame, hcode, Option.isNone_some,
          MCProtocol.SUBHEADER, MCProtocol.FRAME_3E, MCProtocol.FRAME_4E,
          String.reduceEq, Bool.false_eq_true, if_false, reduceIte,
          Option.getD_some]
        exact MCProtocol.bytesOf_ok _ (MCProtocol.buildFrame_4E_mem_lt nn pc io us _
          hnn hpc hus hbody (by rw [MCProtocol.read_body_length, hcmdlen]; omega))
      · rw [MCProtocol.countFieldIndex_4E]
        cases is_bit <;> simp only [Bool.false_eq_true, if_false, if_true,
            reduceIte] <;>
          exact MCProtocol.buildFrame_4E_count_noPayload nn pc io us device_number
            code element 0x01 0x04 he
  · intro values is_bit hlen hv
    have he : values.length < 65536 := by omega
    have hcmd : ∀ b ∈ (if is_bit = true then MCProtocol.CMD_BATCH_WRITE_BIT
        else MCProtocol.CMD_BATCH_WRITE_WORD), b < 256 := by
      split <;> decide
    have hcmdlen : (if is_bit = true then MCProtocol.CMD_BATCH_WRITE_BIT
        else MCProtocol.CMD_BATCH_WRITE_WORD).length = 2 := by
      split <;> rfl
    have hpay : ∀ b ∈ (if is_bit = true then MCProtocol.bitValuesBytes values
        else MCProtocol.wordValuesBytes values), b < 256 := by
      split
      · exact MCProtocol.bitValuesBytes_mem_lt values
      · exact MCProtocol.wordValuesBytes_mem_lt values hv
    have hpaylen : (if is_bit = true then MCProtocol.bitValuesBytes values
        else MCProtocol.wordValuesBytes values).length ≤ 2 * values.length := by
      split
      · rw [MCProtocol.bitValuesBytes_length]
        omega
      · rw [MCProtocol.wordValuesBytes_length]
    have hbody := MCProtocol.request_body_mem_lt _ device_number code
      values.length _ hcmd hn hcode256 he hpay
    rcases hf with hf | hf <;> subst hf
    · refine ⟨MCProtocol.buildFrame MCProtocol.FRAME_3E nn pc io us
        (MCProtocol.TIMER ++
         (if is_bit = true then MCProtocol.CMD_BATCH_WRITE_BIT
          else MCProtocol.CMD_BATCH_WRITE_WORD) ++
         MCProtocol.SUBCMD ++ MCProtocol.device_number_to_bytes device_number ++
         [code] ++ MCProtocol.element_to_bytes values.length ++
         (if is_bit = true then MCProtocol.bitValuesBytes values
          else MCProtocol.wordValuesBytes values)), ?_, ?_⟩
      · simp only [MCProtocol.create_write_frame, hcode, Option.isNone_some,
          MCProtocol.SUBHEADER, MCProtocol.FRAME_3E, MCProtocol.FRAME_4E,
          String.reduceEq, Bool.false_eq_true, if_false, reduceIte,
          Option.getD_some]
        exact MCProtocol.bytesOf_ok _ (MCProtocol.buildFrame_3E_mem_lt nn pc io us _
          hnn hpc hus hbody (by
            rw [MCProtocol.request_body_length, hcmdlen]
            omega))
      · rw [MCProtocol.countFieldIndex_3E]
        cases is_bit <;> simp only [Bool.false_eq_true, if_false, if_true,
            reduceIte] <;>
          exact MCProtocol.buildFrame_3E_count_payload nn pc io us device_number
            code values.length 0x01 0x14 _ he
    · refine ⟨MCProtocol.buildFrame MCProtocol.FRAME_4E nn pc io us
        (MCProtocol.TIMER ++
         (if is_bit = true then MCProtocol.CMD_BATCH_WRITE_BIT
          else MCProtocol.CMD_BATCH_WRITE_WORD) ++
         MCProtocol.SUBCMD ++ MCProtocol.device_number_to_bytes device_number ++
         [code] ++ MCProtocol.element_to_bytes values.length ++
         (if is_bit = true then MCProtocol.bitValuesBytes values
          else MCProtocol.wordValuesBytes values)), ?_, ?_⟩
      · simp only [MCProtocol.create_write_frame, hcode, Option.isNone_some,
          MCProtocol.SUBHEADER, MCProtocol.FRAME_3E, MCProtocol.FRAME_4E,
          String.reduceEq, Bool.false_eq_true, if_false, reduceIte,
          Option.getD_some]
        exact MCProtocol.bytesOf_ok _ (MCProtocol.buildFrame_4E_mem_lt nn pc io us _
          hnn hpc hus hbody (by
            rw [MCProtocol.request_body_length, hcmdlen]
            omega))
      · rw [MCProtocol.countFieldIndex_4E]
        cases is_bit <;> simp only [Bool.false_eq_true, if_false, if_true,
            reduceIte] <;>
          exact MCProtocol.buildFrame_4E_count_payload nn pc io us device_number
            code values.length 0x01 0x14 _ he

/-- Witness for C6 (amended): a read of 961 words (one above the
protocol maximum) produces a frame whose count field encodes 961. -/
theorem c6_no_count_validation_witness :
    ∃ f, MCProtocol.create_read_frame "D" 0 961 false MCProtocol.FRAME_3E
      0 0xFF 0x03FF 0 = .ok f ∧
      f.getD (MCProtocol.countFieldIndex MCProtocol.FRAME_3E) 0 +
        256 * f.getD (MCProtocol.countFieldIndex MCProtocol.FRAME_3E + 1) 0 = 961 :=
  (c6_no_count_validation "D" MCProtocol.FRAME_3E 0 0 0xFF 0x03FF 0 rfl
    (Or.inl rfl) (by norm_num) (by norm_num) (by norm_num) (by norm_num)).1
    961 false (by norm_num)

namespace MCProtocol

lemma word_device_code_isSome (dt : String) (hw : dt ∈ WORD_DEVICES) :
    (deviceCode dt).isSome = true := by
  fin_cases hw <;> rfl

/-- The element-count field of a 3E word-read frame (offsets 19-20)
decodes, little-endian, to the requested element count. -/
lemma buildFrame_3E_read_count (nn pc io us dn c e : Nat) (he : e < 65536) :
    (buildFrame FRAME_3E nn pc io us
      (TIMER ++ CMD_BATCH_READ_WORD ++ SUBCMD ++ device_number_to_bytes dn ++
       [c] ++ element_to_bytes e)).getD 19 0 +
      256 * (buildFrame FRAME_3E nn pc io us
        (TIMER ++ CMD_BATCH_READ_WORD ++ SUBCMD ++ device_number_to_bytes dn ++
         [c] ++ element_to_bytes e)).getD 20 0 = e := by
  show hexValue ((zero_padding (hexDigits e) 4).drop 2) +
      256 * hexValue ((zero_padding (hexDigits e) 4).take 2) = e
  rw [(length_field_decode he).1, (length_field_decode he).2]
  omega

end MCProtocol

namespace PlcClient

lemma word_device_is_bit_false (dt : String) (hw : dt ∈ MCProtocol.WORD_DEVICES) :
    is_bit_device dt = false := by
  fin_cases hw <;> rfl

/-- Whenever the session is already connected, `_send_and_receive`
transmits exactly the one frame it was given, whatever the outcome. -/
lemma sendAndReceive_trace (st : State) (net : Net) (frame : List Nat)
    (hc : st.connected = true) :
    (sendAndReceive st net frame).2.2 = [frame] := by
  simp only [sendAndReceive, hc, reduceIte]
  cases hs : net.send with
  | succ =>
    simp only [hs]
    cases hr : net.recv frame with
    | data response =>
      simp only [hr]
      split_ifs <;> rfl
    | sockError => rfl
    | timeout => rfl
  | sockError => simp only [hs]
  | timeout => simp only [hs]

/-- On a connected 3E session with a supported device class and
byte-valued access-path parameters (so the `bytes(frame)` conversion
succeeds), `read_devices` transmits exactly the read frame built from
its arguments. -/
lemma read_devices_trace (st : State) (net : Net) (device_type : String)
    (device_number count code : Nat)
    (hcode : MCProtocol.deviceCode device_type = some code)
    (hc : st.connected = true) (hft : st.frame_type = MCProtocol.FRAME_3E)
    (hnn : st.network_no < 256) (hpc : st.pc_no < 256)
    (hus : st.unit_station < 256) (hn : device_number < 2 ^ 24)
    (hcnt : count < 65536) :
    (read_devices st net device_type device_number count).2.2 =
      [MCProtocol.buildFrame MCProtocol.FRAME_3E st.network_no st.pc_no
        st.unit_io_no st.unit_station
        (MCProtocol.TIMER ++
         (if is_bit_device device_type then MCProtocol.CMD_BATCH_READ_BIT
          else MCProtocol.CMD_BATCH_READ_WORD) ++
         MCProtocol.SUBCMD ++ MCProtocol.device_number_to_bytes device_number ++
         [code] ++ MCProtocol.element_to_bytes count)] := by
  have hcmd : ∀ b ∈ (if is_bit_device device_type = true
      then MCProtocol.CMD_BATCH_READ_BIT else MCProtocol.CMD_BATCH_READ_WORD),
      b < 256 := by
    split <;> decide
  have hcmdlen : (if is_bit_device device_type = true
      then MCProtocol.CMD_BATCH_READ_BIT
      else MCProtocol.CMD_BATCH_READ_WORD).length = 2 := by
    split <;> rfl
  have hframe := MCProtocol.buildFrame_3E_mem_lt st.network_no st.pc_no
    st.unit_io_no st.unit_station _ hnn hpc hus
    (MCProtocol.read_body_mem_lt _ device_number code count hcmd hn
      (MCProtocol.deviceCode_lt_256 device_type code hcode) hcnt)
    (by rw [MCProtocol.read_body_length, hcmdlen]; omega)
  simp only [MCProtocol.FRAME_3E] at hframe
  simp only [read_devices, hcode, Option.isNone_some, Bool.false_eq_true, if_false,
    reduceIte, MCProtocol.create_read_frame, hft, MCProtocol.SUBHEADER,
    MCProtocol.FRAME_3E, String.reduceEq, Option.getD_some,
    MCProtocol.bytesOf_ok _ hframe]
  have htr := sendAndReceive_trace st net (MCProtocol.buildFrame "3E" st.network_no
    st.pc_no st.unit_io_no st.unit_station
    (MCProtocol.TIMER ++
     (if is_bit_device device_type = true then MCProtocol.CMD_BATCH_READ_BIT
      else MCProtocol.CMD_BATCH_READ_WORD) ++
     MCProtocol.SUBCMD ++ MCProtocol.device_number_to_bytes device_number ++
     [code] ++ MCProtocol.element_to_bytes count)) hc
  rcases hsr : sendAndReceive st net (MCProtocol.buildFrame "3E" st.network_no
    st.pc_no st.unit_io_no st.unit_station
    (MCProtocol.TIMER ++
     (if is_bit_device device_type = true then MCProtocol.CMD_BATCH_READ_BIT
      else MCProtocol.CMD_BATCH_READ_WORD) ++
     MCProtocol.SUBCMD ++ MCProtocol.device_number_to_bytes device_number ++
     [code] ++ MCProtocol.element_to_bytes count)) with ⟨r, st1, tr⟩
  rw [hsr] at htr
  rcases r with e | data
  · simpa using htr
  · rcases hp : MCProtocol.parse_read_response data count
        (is_bit_device device_type) "3E" with pe | pd <;>
      simp only [hp] <;> simpa using htr

end PlcClient

/-- C7 (amended): on a connected 3E session, `read_string` on a word
class issues exactly one batch read, of ⌊(max_chars·3 + 1)/2⌋ words
(integer floor division, as in the source) — not the ceiling the
specification states. -/
theorem c7_read_string_word_count (st : PlcClient.State) (net : PlcClient.Net)
    (device_type : String) (device_number max_length : Nat)
    (hw : device_type ∈ MCProtocol.WORD_DEVICES)
    (hc : st.connected = true)
    (hft : st.frame_type = MCProtocol.FRAME_3E)
    (hnn : st.network_no < 256) (hpc : st.pc_no < 256)
    (hus : st.unit_station < 256) (hn : device_number < 2 ^ 24)
    (hcount : (max_length * 3 + 1) / 2 < 65536) :
    ∃ f, (PlcClient.read_string st net device_type device_number max_length).2.2 = [f] ∧
      f.getD 19 0 + 256 * f.getD 20 0 = (max_length * 3 + 1) / 2 := by
  obtain ⟨code, hcode⟩ := Option.isSome_iff_exists.mp
    (MCProtocol.word_device_code_isSome device_type hw)
  have hrd := PlcClient.read_devices_trace st net device_type device_number
    ((max_length * 3 + 1) / 2) code hcode hc hft hnn hpc hus hn hcount
  rw [PlcClient.word_device_is_bit_false device_type hw] at hrd
  simp only [Bool.false_eq_true, if_false, reduceIte] at hrd
  refine ⟨MCProtocol.buildFrame MCProtocol.FRAME_3E st.network_no st.pc_no
    st.unit_io_no st.unit_station
    (MCProtocol.TIMER ++ MCProtocol.CMD_BATCH_READ_WORD ++ MCProtocol.SUBCMD ++
     MCProtocol.device_number_to_bytes device_number ++ [code] ++
     MCProtocol.element_to_bytes ((max_length * 3 + 1) / 2)), ?_, ?_⟩
  · simp only [PlcClient.read_string, hw, not_true_eq_false, Bool.false_eq_true,
      if_false, reduceIte]
    rcases hres : PlcClient.read_devices st net device_type device_number
        ((max_length * 3 + 1) / 2) with ⟨r, st1, tr⟩
    rw [hres] at hrd
    rcases r with e | data <;> simp only [hres] <;> simpa using hrd
  · exact MCProtocol.buildFrame_3E_read_count st.network_no st.pc_no st.unit_io_no
      st.unit_station device_number code ((max_length * 3 + 1) / 2) hcount

/-- Counterexample to C7 as stated: for max_chars = 2 the read issued by
`read_string` requests 3 words — `(2·3 + 1) // 2` rounding down — while
the claimed ⌈(2·3 + 1)/2⌉ = (2·3 + 1 + 1)/2 is 4. -/
theorem c7_counterexample :
    (PlcClient.read_string PlcClient.st3E PlcClient.okNet "D" 0 2).2.2.map
        (fun f => f.getD 19 0 + 256 * f.getD 20 0) = [3] ∧
    (3 : Nat) ≠ (2 * 3 + 1 + 1) / 2 := by
  constructor
  · have hrd := PlcClient.read_devices_trace PlcClient.st3E PlcClient.okNet "D" 0 3
      0xA8 rfl rfl rfl (by decide) (by decide) (by decide) (by decide) (by decide)
    have hcount := MCProtocol.buildFrame_3E_read_count PlcClient.st3E.network_no
      PlcClient.st3E.pc_no PlcClient.st3E.unit_io_no PlcClient.st3E.unit_station
      0 0xA8 3 (by norm_num)
    rw [PlcClient.word_device_is_bit_false "D" (by decide)] at hrd
    simp only [Bool.false_eq_true, if_false, reduceIte] at hrd
    simp only [PlcClient.read_string]
    rw [if_neg (show ¬ ("D" ∉ MCProtocol.WORD_DEVICES) by decide)]
    rcases hres : PlcClient.read_devices PlcClient.st3E PlcClient.okNet "D" 0
        ((2 * 3 + 1) / 2) with ⟨r, st1, tr⟩
    rw [show (2 * 3 + 1) / 2 = 3 from rfl] at hres
    rw [hres] at hrd
    have htr : tr = _ := hrd
    subst htr
    rcases r with e | data <;>
      simp only [List.map_cons, List.map_nil, hcount]
  · decide

/-- Witness for C7 (amended): reading a string of at most 2 characters
from D5 on the default connected session transmits one frame whose
element count is (2·3 + 1)/2 = 3. -/
theorem c7_read_string_word_count_witness :
    ∃ f, (PlcClient.read_string PlcClient.st3E PlcClient.okNet "D" 5 2).2.2 = [f] ∧
      f.getD 19 0 + 256 * f.getD 20 0 = (2 * 3 + 1) / 2 :=
  c7_read_string_word_count PlcClient.st3E PlcClient.okNet "D" 5 2 (by decide)
    rfl rfl (by decide) (by decide) (by decide) (by decide) (by norm_num)
